import Mathlib

/-!
Verification development for the BMEventsApp core: the Black Rock City
geocoder (src/utils/brcGeo.ts) and the event-processing pipeline
(src/services/EventProcessor.ts, src/utils/timeUtils.ts).

Strings from the source are modelled as List Char; JS numbers are modelled
as exact rationals (ℚ) and millisecond timestamps as integers (ℤ).  The
transcendental tail of the geocoder (destPoint, haversineMeters) is pure
spherical trigonometry over floats; it is factored out: coordOf in the
source is destPoint(MAN, r_m, bearing) applied to the (r_m, bearing) pair
that the parsing layer produces, so the parsing layer is embedded exactly
(coordOfPolar below returns that pair) and the pipeline takes the two
trigonometric maps as explicit function parameters.  A JS number that is
NaN is modelled as Option.none at the positions where NaN can occur.
-/

namespace BRC

/-! ## Character and list-of-char utilities (JS string primitives) -/

/-- ASCII digit test, used to model the \d character class. -/
def isDigitC (ch : Char) : Bool := 48 ≤ ch.toNat && ch.toNat ≤ 57

/-- Whitespace test modelling the JS \s class and String.trim on the
inputs that occur here (ASCII whitespace and NBSP). -/
def isSpaceC (ch : Char) : Bool :=
  ch.toNat = 32 || ch.toNat = 9 || ch.toNat = 10 || ch.toNat = 11 ||
  ch.toNat = 12 || ch.toNat = 13 || ch.toNat = 160

/-- ASCII upper-casing, modelling String.toUpperCase on the data here. -/
def upperChar (ch : Char) : Char :=
  if 97 ≤ ch.toNat && ch.toNat ≤ 122 then Char.ofNat (ch.toNat - 32) else ch

/-- Decimal value of a digit string. -/
def digitsToNat (ds : List Char) : Nat :=
  ds.foldl (fun acc ch => acc * 10 + (ch.toNat - 48)) 0

/-- Drop leading whitespace. -/
def trimL (xs : List Char) : List Char := xs.dropWhile isSpaceC

/-- JS String.trim: drop leading and trailing whitespace. -/
def trimC (xs : List Char) : List Char :=
  ((trimL xs).reverse.dropWhile isSpaceC).reverse

/-- JS replace(/\s+/g, ""): delete every whitespace char. -/
def stripSpaces (xs : List Char) : List Char :=
  xs.filter (fun ch => !(isSpaceC ch))

/-- JS String.split(sep) for a single-char separator. -/
def splitOnC (sep : Char) : List Char → List (List Char)
  | [] => [[]]
  | ch :: rest =>
    if ch = sep then [] :: splitOnC sep rest
    else
      match splitOnC sep rest with
      | t :: ts => (ch :: t) :: ts
      | [] => [[ch]]

/-- JS String.includes(pat): contiguous-substring test. -/
def containsSub : List Char → List Char → Bool
  | [], pat => pat.isEmpty
  | ch :: t, pat => pat.isPrefixOf (ch :: t) || containsSub t pat

/-- JS parseInt(s, 10): skip leading whitespace, optional sign, then the
maximal digit prefix; none models NaN (no digits). -/
def parseDigitsPrefix (xs : List Char) : Option Nat :=
  let ds := xs.takeWhile isDigitC
  if ds.isEmpty then none else some (digitsToNat ds)

def parseIntJS (xs : List Char) : Option ℤ :=
  let s := trimL xs
  match s with
  | c :: rest =>
    if c == '-' then (parseDigitsPrefix rest).map (fun n => -(n : ℤ))
    else if c == '+' then (parseDigitsPrefix rest).map (fun n => (n : ℤ))
    else (parseDigitsPrefix (c :: rest)).map (fun n => (n : ℤ))
  | [] => none

/-- Truncation toward zero, as JS integer conversion / the sign behaviour
of the JS % operator require. -/
def ratTrunc (q : ℚ) : ℤ := q.num.tdiv (q.den : ℤ)

/-- The JS % operator on numbers (remainder with the dividend's sign). -/
def jsModQ (a b : ℚ) : ℚ := a - b * (ratTrunc (a / b) : ℚ)

/-- JS Math.round: round half toward positive infinity. -/
def ratRound (q : ℚ) : ℤ := (q + 1/2).floor

/-! ## brcGeo.ts: configuration constants -/

def ESPL_RADIUS_FT : ℚ := 2500

def FT2M : ℚ := 0.3048

def CITY_ROTATION_DEG : ℚ := 45

/-- Street widths in feet, indexed A=0 .. K=10 (WIDTH table). -/
def widthFt : Nat → ℚ
  | 0 => 30 | 1 => 30 | 2 => 30 | 3 => 30 | 4 => 40
  | 5 => 30 | 6 => 30 | 7 => 30 | 8 => 30 | 9 => 30
  | 10 => 50 | _ => 0

/-- Block depths in feet, indexed A=0 .. K=10 (BLOCK table). -/
def blockFt : Nat → ℚ
  | 0 => 400 | 1 => 250 | 2 => 250 | 3 => 250 | 4 => 250
  | 5 => 450 | 6 => 250 | 7 => 250 | 8 => 250 | 9 => 150
  | 10 => 150 | _ => 0

/-! ## brcGeo.ts: bearingFromClock -/

/-- Result of bearingFromClock: a thrown ParseError (err), a NaN bearing
(nan, reachable when the string contains a colon but the hour part has no
digit prefix), or a finite bearing in degrees. -/
inductive ClockRes
  | err
  | nan
  | val (b : ℚ)
deriving DecidableEq

def allDigits (xs : List Char) : Bool := xs.all isDigitC

/-- The regex /^\d{1,4}$/. -/
def digits14 (xs : List Char) : Bool :=
  !xs.isEmpty && xs.length ≤ 4 && allDigits xs

/-- The regex /^\d+(\.\d+)?$/. -/
def decRegexUnbounded (xs : List Char) : Bool :=
  let a := xs.takeWhile isDigitC
  match xs.drop a.length with
  | [] => !a.isEmpty
  | d :: b => (d == '.') && !a.isEmpty && !b.isEmpty && allDigits b

/-- The numeric half of the isClockish regex, /^\d{1,4}(\.\d+)?$/. -/
def clockNumRegex (xs : List Char) : Bool :=
  let a := xs.takeWhile isDigitC
  match xs.drop a.length with
  | [] => !a.isEmpty && a.length ≤ 4
  | d :: b => (d == '.') && !a.isEmpty && a.length ≤ 4 && !b.isEmpty && allDigits b

/-- Exact value of a string matching decRegexUnbounded (JS parseFloat on
such a string is exact in this model). -/
def decimalVal (xs : List Char) : ℚ :=
  let a := xs.takeWhile isDigitC
  match xs.drop a.length with
  | d :: b =>
    if d == '.' then (digitsToNat a : ℚ) + (digitsToNat b : ℚ) / ((10 : ℚ) ^ b.length)
    else (digitsToNat a : ℚ)
  | [] => (digitsToNat a : ℚ)

/-- The hour/minute extraction of bearingFromClock on the normalised
string: outer none is the thrown ParseError, inner none is a NaN hour
(colon present but the hour part has no digit prefix). -/
def bearingHM (s : List Char) : Option (Option (ℤ × ℤ)) :=
  if s.contains ':' then
    let parts := splitOnC ':' s
    let hh := parts.headD []
    let mm := match parts with
      | _ :: m :: _ => m
      | _ => ['0']
    match parseIntJS hh with
    | none => some none
    | some h => some (some (h, (parseIntJS mm).getD 0))
  else if digits14 s then
    if s.length ≤ 2 then some (some ((digitsToNat s : ℤ), 0))
    else some (some ((digitsToNat (s.take (s.length - 2)) : ℤ),
                     (digitsToNat (s.drop (s.length - 2)) : ℤ)))
  else if decRegexUnbounded s then
    let f := decimalVal s
    let h : ℤ := f.floor
    some (some (h, ratRound ((f - (h : ℚ)) * 60)))
  else none

/-- brcGeo.ts bearingFromClock.  Mirrors the source exactly: normalise
(trim, toUpperCase, strip whitespace), then the colon / 1-4 digit /
decimal branches (bearingHM), 12 → 0, then ((h + m/60) * 30 + 45) % 360. -/
def bearingFromClock (clockStr : List Char) : ClockRes :=
  let s := stripSpaces ((trimC clockStr).map upperChar)
  match bearingHM s with
  | none => ClockRes.err
  | some none => ClockRes.nan
  | some (some (h0, m)) =>
    let h := if h0 = 12 then 0 else h0
    ClockRes.val (jsModQ (((h : ℚ) + (m : ℚ) / 60) * 30 + CITY_ROTATION_DEG) 360)

/-! ## brcGeo.ts: radiusFeetForRing -/

def ringOrder : List Char := "ABCDEFGHIJK".toList

/-- JS "ABCDEFGHIJK".indexOf(n): position of the first occurrence of n as
a contiguous substring (0 for the empty string), none for -1. -/
def indexOfSub : List Char → List Char → Option Nat
  | [], pat => if pat.isEmpty then some 0 else none
  | ch :: t, pat =>
    if pat.isPrefixOf (ch :: t) then some 0
    else (indexOfSub t pat).map (· + 1)

/-- brcGeo.ts radiusFeetForRing; none models the thrown ParseError. -/
def radiusFeetForRing (name : List Char) : Option ℚ :=
  let n := (trimC name).map upperChar
  if n = ("ESPLANADE".toList) || n = ("ESPL".toList) then some ESPL_RADIUS_FT
  else
    match indexOfSub ringOrder n with
    | none => none
    | some idx =>
      some ((List.range (idx + 1)).foldl
        (fun r i => r + blockFt i + (if i = idx then widthFt i / 2 else widthFt i))
        (ESPL_RADIUS_FT + 40 / 2))

/-! ## brcGeo.ts: coordOf, factored at the (distance, bearing) level -/

/-- The isClockish predicate from coordOf. -/
def isClockish (s : List Char) : Bool := s.contains ':' || clockNumRegex s

/-- The \s+Portal tail of the portal regex: at least one whitespace char,
then the literal "Portal". -/
def portalAfterTok (rest : List Char) : Bool :=
  let sp := rest.takeWhile isSpaceC
  !sp.isEmpty && ("Portal".toList).isPrefixOf (rest.drop sp.length)

/-- Attempts of the portal regex alternation at one position, in regex
preference order: two-digit hour with minutes, one-digit hour with
minutes, two bare digits, one bare digit. -/
def pm5 (xs : List Char) : Option (List Char) :=
  match xs with
  | a :: b :: c :: m1 :: m2 :: rest =>
    if isDigitC a && isDigitC b && (c == ':') && isDigitC m1 && isDigitC m2 && portalAfterTok rest
    then some [a, b, c, m1, m2] else none
  | _ => none

def pm4 (xs : List Char) : Option (List Char) :=
  match xs with
  | a :: c :: m1 :: m2 :: rest =>
    if isDigitC a && (c == ':') && isDigitC m1 && isDigitC m2 && portalAfterTok rest
    then some [a, c, m1, m2] else none
  | _ => none

def pm2 (xs : List Char) : Option (List Char) :=
  match xs with
  | a :: b :: rest =>
    if isDigitC a && isDigitC b && portalAfterTok rest then some [a, b] else none
  | _ => none

def pm1 (xs : List Char) : Option (List Char) :=
  match xs with
  | a :: rest =>
    if isDigitC a && portalAfterTok rest then some [a] else none
  | _ => none

def portalMatchAt (xs : List Char) : Option (List Char) :=
  match pm5 xs with
  | some r => some r
  | none =>
    match pm4 xs with
    | some r => some r
    | none =>
      match pm2 xs with
      | some r => some r
      | none => pm1 xs

/-- Leftmost match of /(\d{1,2}:\d{2}|\d{1,2})\s+Portal/, returning the
captured clock token. -/
def portalFind : List Char → Option (List Char)
  | [] => none
  | ch :: t =>
    match portalMatchAt (ch :: t) with
    | some r => some r
    | none => portalFind t

/-- One position of /([A-K])\s+Plaza/i: a ring letter (either case),
whitespace, then "Plaza" case-insensitively; captures the letter. -/
def plazaMatchAt (xs : List Char) : Option Char :=
  match xs with
  | ch :: rest =>
    if ringOrder.contains (upperChar ch) then
      let sp := rest.takeWhile isSpaceC
      if !sp.isEmpty && ("PLAZA".toList).isPrefixOf ((rest.drop sp.length).map upperChar)
      then some ch else none
    else none
  | [] => none

/-- Leftmost match of /([A-K])\s+Plaza/i. -/
def plazaFind : List Char → Option Char
  | [] => none
  | ch :: t =>
    match plazaMatchAt (ch :: t) with
    | some r => some r
    | none => plazaFind t

/-- Assemble coordOf's result from a ring radius and a clock bearing: a
thrown ParseError from either helper (none / err) propagates; a NaN
bearing flows into destPoint and yields a NaN coordinate, recorded as a
present polar pair with an absent bearing. -/
def mkPolar (rOpt : Option ℚ) (bres : ClockRes) : Option (ℚ × Option ℚ) :=
  match rOpt, bres with
  | some rq, ClockRes.val b => some (rq * FT2M, some b)
  | some rq, ClockRes.nan => some (rq * FT2M, none)
  | _, _ => none

/-- The intersection tail of coordOf: split on '&', trim, truthiness
check, then the four clock/ring routing branches. -/
def intersectOf (s : List Char) : Option (ℚ × Option ℚ) :=
  match (splitOnC '&' s).map trimC with
  | p1 :: p2 :: _ =>
    if p1.isEmpty || p2.isEmpty then none
    else if isClockish p1 && !isClockish p2 then
      mkPolar (radiusFeetForRing p2) (bearingFromClock p1)
    else if isClockish p2 && !isClockish p1 then
      mkPolar (radiusFeetForRing p1) (bearingFromClock p2)
    else if ("ESPL".toList).isPrefixOf (p1.map upperChar) && isClockish p2 then
      mkPolar (radiusFeetForRing p1) (bearingFromClock p2)
    else if ("ESPL".toList).isPrefixOf (p2.map upperChar) && isClockish p1 then
      mkPolar (radiusFeetForRing p2) (bearingFromClock p1)
    else none
  | _ => none

/-- The portal check followed by the intersection fallback. -/
def portalOrIntersect (s : List Char) : Option (ℚ × Option ℚ) :=
  if containsSub s ("Portal".toList) && !s.contains '&' then
    match portalFind s with
    | some clock => mkPolar (radiusFeetForRing ("ESPLANADE".toList)) (bearingFromClock clock)
    | none => intersectOf s
  else intersectOf s

/-- brcGeo.ts coordOf, at the (distance-in-meters, bearing) level: the
source returns destPoint(MAN.lat, MAN.lon, r_m, bearing) for exactly the
pair produced here, and throws (none) in exactly the none cases here. -/
def coordOfPolar (locationString : List Char) : Option (ℚ × Option ℚ) :=
  if containsSub locationString ("Plaza".toList) then
    if containsSub locationString ("Center Camp Plaza".toList) then
      mkPolar (radiusFeetForRing ("ESPLANADE".toList)) (bearingFromClock ("6:00".toList))
    else
      match (splitOnC '@' locationString).map trimC with
      | [plazaPart, clockPart] =>
        match plazaFind plazaPart with
        | some ringCh => mkPolar (radiusFeetForRing [ringCh]) (bearingFromClock clockPart)
        | none => portalOrIntersect locationString
      | _ => portalOrIntersect locationString
  else portalOrIntersect locationString

/-! ## Event data model (src/types/events.ts as used by EventProcessor.ts)

JS falsiness of the optional string fields is modelled explicitly: a
field that is absent or null is none; the empty string is a present
falsy value and is tested for where the source tests truthiness. -/

/-- A raw occurrence time field: the raw string from the dataset plus the
timestamp new Date(raw).getTime() in ms, none when that is NaN
(unparseable). -/
structure TimeField where
  raw : String
  val : Option ℤ
deriving DecidableEq

structure Occurrence where
  start_time : Option TimeField
  end_time : Option TimeField
deriving DecidableEq

structure EventType where
  label : Option String
  abbr : Option String
deriving DecidableEq

structure RawEvent where
  uid : String
  title : Option String
  description : Option String
  event_type : Option EventType
  occurrence_set : Option (List Occurrence)
  located_at_art : Option String
  hosted_by_camp : Option String
  other_location : Option String
  url : Option String
  contact_email : Option String
  all_day : Option Bool
deriving DecidableEq

/-- Art record fields read by the resolver; gps values are none when
absent, null, or non-finite (Number.isFinite would reject them). -/
structure ArtLocation where
  gps_latitude : Option ℚ
  gps_longitude : Option ℚ
deriving DecidableEq

structure ArtRecord where
  name : Option String
  location : Option ArtLocation
deriving DecidableEq

structure CampRecord where
  location_string : Option String
deriving DecidableEq

inductive LocSource
  | art
  | camp
  | other
  | unknown
deriving DecidableEq

structure LocationInfo where
  lat : Option ℚ
  lon : Option ℚ
  label : String
  source : LocSource
deriving DecidableEq

inductive EventStatus
  | NOW
  | SOON
  | UPCOMING
  | ENDED
deriving DecidableEq

structure ProcessedEvent where
  id : String
  eventUid : String
  title : String
  description : String
  type : String
  typeAbbr : String
  start : Option ℤ
  ending : Option ℤ
  status : EventStatus
  distance : Option ℚ
  lat : Option ℚ
  lon : Option ℚ
  locLabel : String
  isRecurring : Bool
  futureOccurrences : String
  url : Option String
  contact_email : Option String
  all_day : Option Bool
deriving DecidableEq

/-- SearchParams after destructuring with defaults applied; lat/lon are
some only when the source's hasGPS test (finite numbers) passes. -/
structure SearchParams where
  lat : Option ℚ
  lon : Option ℚ
  radius : ℚ
  window : ℤ
  now : ℤ
  eventTypes : List String
  showOnlyActive : Bool
  showOnlyUpcoming : Bool
  showOnlyFavorites : Bool
deriving DecidableEq

/-! ## EventProcessor.ts: status and time filtering

Timestamps are ms; a Date whose getTime() is NaN is none, and every
comparison against it is false, as in JS. -/

def statusBuffer : ℤ := 15 * 60 * 1000

/-- The condition start <= now && now <= end && end - now >= buffer; false
whenever start or end is an invalid date. -/
def activeCond (s e : Option ℤ) (now : ℤ) : Bool :=
  (match s with | some sv => decide (sv ≤ now) | none => false) &&
  (match e with | some ev => decide (now ≤ ev) | none => false) &&
  (match e with | some ev => decide (statusBuffer ≤ ev - now) | none => false)

/-- EventProcessor.determineEventStatus. -/
def determineEventStatus (s e : Option ℤ) (now : ℤ) : EventStatus :=
  if activeCond s e now then EventStatus.NOW
  else
    match s with
    | some sv =>
      if now < sv then
        if sv - now ≤ statusBuffer then EventStatus.SOON else EventStatus.UPCOMING
      else EventStatus.ENDED
    | none => EventStatus.ENDED

/-- EventProcessor.passesTimeFilter (the status argument is unused in the
source and omitted here). -/
def passesTimeFilter (s e : Option ℤ) (now cutoff : ℤ) : Bool :=
  let isActive := activeCond s e now
  let isUpcoming :=
    match s with
    | some sv => decide (now < sv) && decide (sv ≤ cutoff)
    | none => false
  isActive || isUpcoming

/-! ## EventProcessor.ts: location resolution -/

/-- The geocoder as the pipeline sees it: coordOf composed with the
destination-point projection from MAN.  destP is the abstract map
(distance, bearing) ↦ (lat, lon) standing for the spherical destPoint at
the fixed origin; a parse failure is none, and a NaN bearing produces
non-finite coordinates which every consumer treats as absent. -/
def geocodeGPS (destP : ℚ → ℚ → ℚ × ℚ) (s : String) : Option (ℚ × ℚ) :=
  match coordOfPolar s.toList with
  | some (d, some b) => some (destP d b)
  | _ => none

/-- Priority 1 of resolveEventLocation: the art-installation branch; none
when the branch falls through (no truthy link or no cache hit). -/
def artResolve (artMap : String → Option ArtRecord) (ev : RawEvent) :
    Option LocationInfo :=
  match ev.located_at_art with
  | some aid =>
    if aid = "" then none
    else
      match artMap aid with
      | some art =>
        some { lat := art.location.bind ArtLocation.gps_latitude
               lon := art.location.bind ArtLocation.gps_longitude
               label := match art.name with
                 | some n => if n = "" then "Art Location" else "@ " ++ n
                 | none => "Art Location"
               source := LocSource.art }
      | none => none
  | none => none

/-- Priority 2: the hosting-camp branch; the catch around coordOf is the
none branch of geocodeGPS, producing the label-only camp result. -/
def campResolve (campMap : String → Option CampRecord) (destP : ℚ → ℚ → ℚ × ℚ)
    (ev : RawEvent) : Option LocationInfo :=
  match ev.hosted_by_camp with
  | some cid =>
    if cid = "" then none
    else
      match campMap cid with
      | some camp =>
        match camp.location_string with
        | some ls =>
          if ls = "" then none
          else
            match geocodeGPS destP ls with
            | some (la, lo) =>
              some { lat := some la, lon := some lo
                     label := "@ [" ++ ls ++ "]", source := LocSource.camp }
            | none =>
              some { lat := none, lon := none
                     label := "@ [" ++ ls ++ "]", source := LocSource.camp }
        | none => none
      | none => none
  | none => none

/-- Priorities 3 and 4: the free-text other_location branch and the
unknown fallback. -/
def otherResolve (destP : ℚ → ℚ → ℚ × ℚ) (ev : RawEvent) : LocationInfo :=
  match ev.other_location with
  | some ol =>
    if ol = "" then
      { lat := none, lon := none, label := "Location TBD", source := LocSource.unknown }
    else
      match geocodeGPS destP ol with
      | some (la, lo) =>
        { lat := some la, lon := some lo, label := ol, source := LocSource.other }
      | none =>
        { lat := none, lon := none, label := ol, source := LocSource.other }
  | none =>
    { lat := none, lon := none, label := "Location TBD", source := LocSource.unknown }

/-- EventProcessor.resolveEventLocation, with the art and camp caches as
lookup functions: the source's sequence of early returns is the
first-hit chain over the three resolver steps. -/
def resolveEventLocation (artMap : String → Option ArtRecord)
    (campMap : String → Option CampRecord) (destP : ℚ → ℚ → ℚ × ℚ)
    (ev : RawEvent) : LocationInfo :=
  match artResolve artMap ev with
  | some r => r
  | none =>
    match campResolve campMap destP ev with
    | some r => r
    | none => otherResolve destP ev

/-! ## EventProcessor.ts: future occurrence days -/

def dayAbbrs : List String := ["Su", "M", "Tu", "W", "Th", "F", "S"]

/-- Date.prototype.getDay on a ms timestamp (day of week, 0 = Sunday).
The source evaluates it in the host timezone; the model fixes UTC, which
is a fixed deterministic recoding and does not affect any claim. -/
def jsGetDay (t : ℤ) : Nat := (((t.fdiv 86400000) + 4) % 7).toNat

/-- JS Array.indexOf for strings (-1 when absent). -/
def jsIndexOf (l : List String) (a : String) : ℤ :=
  match l.findIdx? (· == a) with
  | some i => (i : ℤ)
  | none => -1

/-- The filter((day, index, arr) => arr.indexOf(day) === index) idiom:
keep the first occurrence of each element. -/
def firstDedup (l : List String) : List String :=
  l.foldl (fun acc d => if d ∈ acc then acc else acc ++ [d]) []

/-- Stable comparator sort modelling Array.prototype.sort: x is inserted
before the first y that does not compare strictly less than it, so tied
elements keep their input order. -/
def insertCmp {α : Type} (cmp : α → α → ℚ) (x : α) : List α → List α
  | [] => [x]
  | y :: ys => if cmp x y ≤ 0 then x :: y :: ys else y :: insertCmp cmp x ys

def stableSortBy {α : Type} (cmp : α → α → ℚ) : List α → List α
  | [] => []
  | x :: xs => insertCmp cmp x (stableSortBy cmp xs)

/-- EventProcessor.getFutureOccurrences.  wallNow is the new Date() the
source takes inside this method (the true wall clock, not the search
now); currentTime is the getTime() of the occurrence being processed
(none would be NaN, and NaN !== t is true for every t). -/
def getFutureOccurrences (events : List RawEvent) (wallNow : ℤ)
    (uid : String) (currentTime : Option ℤ) : String :=
  match events.find? (fun e => e.uid == uid) with
  | none => ""
  | some e =>
    match e.occurrence_set with
    | none => ""
    | some occs =>
      if occs.length ≤ 1 then ""
      else
        let fut := occs.filter (fun occ =>
          match occ.start_time with
          | some tf =>
            match tf.val with
            | some t =>
              decide (wallNow < t) &&
              (match currentTime with
               | some c => decide (t ≠ c)
               | none => true)
            | none => false
          | none => false)
        let days := fut.map (fun occ =>
          match occ.start_time with
          | some tf =>
            match tf.val with
            | some t => dayAbbrs.getD (jsGetDay t) "Su"
            | none => "Su"
          | none => "Su")
        let dd := firstDedup days
        let sorted := stableSortBy
          (fun a b => ((jsIndexOf dayAbbrs a - jsIndexOf dayAbbrs b : ℤ) : ℚ)) dd
        String.intercalate "," sorted

/-! ## EventProcessor.ts: processEvents -/

/-- event.event_type?.abbr with the || 'othr' default ('' is falsy). -/
def abbrOf (ev : RawEvent) : String :=
  match ev.event_type with
  | some et =>
    match et.abbr with
    | some a => if a = "" then "othr" else a
    | none => "othr"
  | none => "othr"

def labelOf (ev : RawEvent) : String :=
  match ev.event_type with
  | some et =>
    match et.label with
    | some l => if l = "" then "Other" else l
    | none => "Other"
  | none => "Other"

def titleOf (ev : RawEvent) : String :=
  match ev.title with
  | some t => if t = "" then "Untitled Event" else t
  | none => "Untitled Event"

def descriptionOf (ev : RawEvent) : String :=
  match ev.description with
  | some d => d
  | none => ""

/-- JS truthiness of a number|null coordinate: null, NaN (merged into
none) and 0 are falsy. -/
def truthyQ : Option ℚ → Bool
  | some q => decide (q ≠ 0)
  | none => false

/-- The body of the occurrence loop of processEvents: none models every
continue.  haversineM abstracts haversineMeters (viewer lat, viewer lon,
event lat, event lon ↦ meters) and destP abstracts destPoint from MAN;
wallNow is the wall clock read by getFutureOccurrences. -/
def processOcc (haversineM : ℚ → ℚ → ℚ → ℚ → ℚ) (destP : ℚ → ℚ → ℚ × ℚ)
    (artMap : String → Option ArtRecord) (campMap : String → Option CampRecord)
    (events : List RawEvent) (favIds : String → Bool) (p : SearchParams)
    (wallNow : ℤ) (ev : RawEvent) (occ : Occurrence) : Option ProcessedEvent :=
  match occ.start_time, occ.end_time with
  | some stf, some etf =>
    if stf.raw = "" || etf.raw = "" then none
    else
      let sv := stf.val
      let ev2 := etf.val
      let status := determineEventStatus sv ev2 p.now
      let cutoff := p.now + p.window * 60 * 1000
      if passesTimeFilter sv ev2 p.now cutoff then
        let li := resolveEventLocation artMap campMap destP ev
        let distRes : Option (Option ℚ) :=
          match p.lat, p.lon with
          | some vla, some vlo =>
            if truthyQ li.lat && truthyQ li.lon then
              match li.lat, li.lon with
              | some la, some lo =>
                let d := haversineM vla vlo la lo
                if p.radius < d then none else some (some d)
              | _, _ => some none
            else some none
          | _, _ => some none
        match distRes with
        | none => none
        | some distance =>
          if p.eventTypes.contains (abbrOf ev) then
            if p.showOnlyActive && !(status = EventStatus.NOW) then none
            else if p.showOnlyUpcoming &&
                (status = EventStatus.ENDED || status = EventStatus.NOW) then none
            else if p.showOnlyFavorites && !(favIds (ev.uid ++ "_" ++ stf.raw)) then none
            else
              some { id := ev.uid ++ "_" ++ stf.raw
                     eventUid := ev.uid
                     title := titleOf ev
                     description := descriptionOf ev
                     type := labelOf ev
                     typeAbbr := abbrOf ev
                     start := sv
                     ending := ev2
                     status := status
                     distance := distance
                     lat := li.lat
                     lon := li.lon
                     locLabel := li.label
                     isRecurring := decide (1 < (ev.occurrence_set.getD []).length)
                     futureOccurrences := getFutureOccurrences events wallNow ev.uid sv
                     url := ev.url
                     contact_email := ev.contact_email
                     all_day := ev.all_day }
          else none
      else none
  | _, _ => none

/-- EventProcessor.processEvents, with the data-loader results (events),
the venue caches, and the favorite-id snapshot as inputs. -/
def processEvents (haversineM : ℚ → ℚ → ℚ → ℚ → ℚ) (destP : ℚ → ℚ → ℚ × ℚ)
    (artMap : String → Option ArtRecord) (campMap : String → Option CampRecord)
    (events : List RawEvent) (favIds : String → Bool) (p : SearchParams)
    (wallNow : ℤ) : List ProcessedEvent :=
  events.flatMap (fun ev =>
    (ev.occurrence_set.getD []).filterMap
      (processOcc haversineM destP artMap campMap events favIds p wallNow ev))

/-! ## EventProcessor.ts: sortEvents -/

def statusPriority : EventStatus → ℤ
  | EventStatus.NOW => 0
  | EventStatus.SOON => 1
  | EventStatus.UPCOMING => 2
  | EventStatus.ENDED => 3

/-- Sign model of String.localeCompare (total order on strings; the
source's locale order is some fixed total order, modelled here as the
code-point order). -/
def strCmp (a b : String) : ℤ :=
  if a < b then -1 else if b < a then 1 else 0

/-- a.start.getTime() - b.start.getTime() as a comparator value; a NaN
comparator result is treated as +0 by Array.prototype.sort. -/
def oDiff (a b : Option ℤ) : ℚ :=
  match a, b with
  | some x, some y => ((x - y : ℤ) : ℚ)
  | _, _ => 0

/-- The 'distance' comparator: null distances sort last, ties keep
relative order. -/
def cmpDistance (a b : ProcessedEvent) : ℚ :=
  match a.distance, b.distance with
  | none, none => 0
  | none, some _ => 1
  | some _, none => -1
  | some da, some db => da - db

def cmpTime (a b : ProcessedEvent) : ℚ := oDiff a.start b.start

def cmpEnding (a b : ProcessedEvent) : ℚ :=
  if a.status = EventStatus.NOW && b.status = EventStatus.NOW then oDiff a.ending b.ending
  else if a.status = EventStatus.NOW && !(b.status = EventStatus.NOW) then -1
  else if !(a.status = EventStatus.NOW) && b.status = EventStatus.NOW then 1
  else oDiff a.start b.start

def cmpType (a b : ProcessedEvent) : ℚ :=
  if a.typeAbbr ≠ b.typeAbbr then ((strCmp a.typeAbbr b.typeAbbr : ℤ) : ℚ)
  else oDiff a.start b.start

def cmpTitle (a b : ProcessedEvent) : ℚ :=
  if a.title ≠ b.title then ((strCmp a.title b.title : ℤ) : ℚ)
  else oDiff a.start b.start

def cmpDefault (a b : ProcessedEvent) : ℚ :=
  if statusPriority a.status ≠ statusPriority b.status then
    ((statusPriority a.status - statusPriority b.status : ℤ) : ℚ)
  else if a.status = EventStatus.NOW then oDiff a.ending b.ending
  else oDiff a.start b.start

/-- The comparator selected by the sortType switch in sortEvents; the
final branch is both the 'default' case label and the switch default. -/
def cmpOf (sortType : String) : ProcessedEvent → ProcessedEvent → ℚ :=
  if sortType = "distance" then cmpDistance
  else if sortType = "time" then cmpTime
  else if sortType = "ending" then cmpEnding
  else if sortType = "type" then cmpType
  else if sortType = "title" then cmpTitle
  else cmpDefault

/-- EventProcessor.sortEvents (the currentTime default parameter is unused
in the source and omitted; the source copies the array and sorts the
copy, modelled by the non-mutating stable sort). -/
def sortEvents (events : List ProcessedEvent) (sortType : String) : List ProcessedEvent :=
  stableSortBy (cmpOf sortType) events

/-! ## Countdown formatters (EventProcessor.ts and timeUtils.ts) -/

namespace EventProcessor

/-- EventProcessor.formatCountdown: note the sign is prepended in the
hours branch only. -/
def formatCountdown (minutes : ℤ) : String :=
  if minutes.natAbs < 60 then toString minutes.natAbs ++ "m"
  else
    let hours := minutes.natAbs / 60
    let remainingMinutes := minutes.natAbs % 60
    let sign := if minutes < 0 then "-" else ""
    if remainingMinutes = 0 then sign ++ toString hours ++ "h"
    else sign ++ toString hours ++ "h " ++ toString remainingMinutes ++ "m"

end EventProcessor

namespace TimeUtils

/-- timeUtils.formatCountdown: works on the absolute value throughout and
never emits a sign. -/
def formatCountdown (minutes : ℤ) : String :=
  let absMinutes := minutes.natAbs
  if absMinutes < 60 then toString absMinutes ++ "m"
  else
    let hours := absMinutes / 60
    let remainingMinutes := absMinutes % 60
    if remainingMinutes = 0 then toString hours ++ "h"
    else toString hours ++ "h " ++ toString remainingMinutes ++ "m"

end TimeUtils

/-! ## Concrete sample data used by witnesses and counterexamples -/

/-- A constant distance function standing in for haversineMeters. -/
def dist0 : ℚ → ℚ → ℚ → ℚ → ℚ := fun _ _ _ _ => 0

/-- A constant projection standing in for destPoint from MAN. -/
def proj0 : ℚ → ℚ → ℚ × ℚ := fun _ _ => (0, 0)

def noArt : String → Option ArtRecord := fun _ => none

def noCamp : String → Option CampRecord := fun _ => none

def noFav : String → Bool := fun _ => false

def occ1 : Occurrence :=
  { start_time := some { raw := "t1", val := some 60000 }
    end_time := some { raw := "t1e", val := some 1000000 } }

def occ2 : Occurrence :=
  { start_time := some { raw := "t2", val := some 1000000000 }
    end_time := some { raw := "t2e", val := some 1000060000 } }

def ev1 : RawEvent :=
  { uid := "e1", title := none, description := none, event_type := none
    occurrence_set := some [occ1, occ2], located_at_art := none
    hosted_by_camp := none, other_location := none, url := none
    contact_email := none, all_day := none }

def sp1 : SearchParams :=
  { lat := none, lon := none, radius := 1000, window := 10, now := 0
    eventTypes := ["othr"], showOnlyActive := false, showOnlyUpcoming := false
    showOnlyFavorites := false }

/-- Art record whose dataset gps latitude is the (finite, falsy) number 0. -/
def art0 : ArtRecord :=
  { name := some "Zero Art"
    location := some { gps_latitude := some 0, gps_longitude := some 10 } }

def am0 : String → Option ArtRecord := fun s => if s = "a1" then some art0 else none

def evA : RawEvent := { ev1 with uid := "e2", located_at_art := some "a1", occurrence_set := some [occ1] }

def spG : SearchParams := { sp1 with lat := some 1, lon := some 2, radius := 1 }

/-- Camp whose location string is present but empty (falsy in JS). -/
def campE : CampRecord := { location_string := some "" }

def cm0 : String → Option CampRecord := fun s => if s = "c1" then some campE else none

def evC : RawEvent := { ev1 with uid := "e3", hosted_by_camp := some "c1", occurrence_set := some [occ1] }

/-- Camp with a non-empty address that the grammar rejects. -/
def campU : CampRecord := { location_string := some "somewhere in deep playa" }

def cmU : String → Option CampRecord := fun s => if s = "c1" then some campU else none

/-- Art record with finite non-zero coordinates. -/
def art1 : ArtRecord :=
  { name := some "The Folly"
    location := some { gps_latitude := some 2, gps_longitude := some 3 } }

def am1 : String → Option ArtRecord := fun s => if s = "a2" then some art1 else none

def evB : RawEvent := { ev1 with uid := "e4", located_at_art := some "a2", occurrence_set := some [occ1] }

/-- Two processed events that tie under the time comparator. -/
def peA : ProcessedEvent :=
  { id := "a", eventUid := "a", title := "a", description := "", type := ""
    typeAbbr := "", start := some 5, ending := some 9, status := EventStatus.SOON
    distance := none, lat := none, lon := none, locLabel := ""
    isRecurring := false, futureOccurrences := "", url := none
    contact_email := none, all_day := none }

def peB : ProcessedEvent := { peA with id := "b", eventUid := "b", title := "b" }

/-- The single record emitted for ev1 under sp1 with wall clock 0. -/
def peSample : ProcessedEvent :=
  { id := "e1_t1", eventUid := "e1", title := "Untitled Event", description := ""
    type := "Other", typeAbbr := "othr", start := some 60000, ending := some 1000000
    status := EventStatus.SOON, distance := none, lat := none, lon := none
    locLabel := "Location TBD", isRecurring := true, futureOccurrences := "M"
    url := none, contact_email := none, all_day := none }

/-! ## Small list/arithmetic helper lemmas -/

theorem takeWhile_all_eq {p : Char → Bool} {l : List Char} (h : l.all p = true) :
    l.takeWhile p = l := by
  induction l with
  | nil => rfl
  | cons x t ih =>
    simp only [List.all_cons, Bool.and_eq_true] at h
    simp [List.takeWhile, h.1, ih h.2]

theorem dropWhile_all_eq {p : Char → Bool} {l : List Char}
    (h : l.all (fun x => !(p x)) = true) : l.dropWhile p = l := by
  cases l with
  | nil => rfl
  | cons x t =>
    simp only [List.all_cons, Bool.and_eq_true, Bool.not_eq_true'] at h
    simp [List.dropWhile, h.1]

/-! ## C2: the status state machine -/

/-- The buffer constant in ms. -/
theorem statusBuffer_eq : statusBuffer = 900000 := by decide

/-- C2: for parseable start and end, determineEventStatus implements
exactly the spec's four mutually exclusive cases with a 15-minute buffer,
including both boundary instances (end = now + 15m is NOW, end = now +
14m with start ≤ now is ENDED). -/
theorem C2_status_cases (s e now : ℤ) :
    (determineEventStatus (some s) (some e) now = EventStatus.NOW ↔
      s ≤ now ∧ now ≤ e ∧ statusBuffer ≤ e - now) ∧
    (determineEventStatus (some s) (some e) now = EventStatus.SOON ↔
      now < s ∧ s - now ≤ statusBuffer) ∧
    (determineEventStatus (some s) (some e) now = EventStatus.UPCOMING ↔
      now < s ∧ statusBuffer < s - now) ∧
    (determineEventStatus (some s) (some e) now = EventStatus.ENDED ↔
      ¬(s ≤ now ∧ now ≤ e ∧ statusBuffer ≤ e - now) ∧ ¬(now < s)) ∧
    (s ≤ now → determineEventStatus (some s) (some (now + 900000)) now = EventStatus.NOW) ∧
    (s ≤ now → determineEventStatus (some s) (some (now + 840000)) now = EventStatus.ENDED) := by
  have key : ∀ e' : ℤ, determineEventStatus (some s) (some e') now =
      if s ≤ now ∧ now ≤ e' ∧ statusBuffer ≤ e' - now then EventStatus.NOW
      else if now < s then
        (if s - now ≤ statusBuffer then EventStatus.SOON else EventStatus.UPCOMING)
      else EventStatus.ENDED := by
    intro e'
    simp only [determineEventStatus, activeCond, Bool.and_eq_true, decide_eq_true_eq]
    by_cases h1 : s ≤ now ∧ now ≤ e' ∧ statusBuffer ≤ e' - now
    · rw [if_pos, if_pos h1]
      simp [h1.1, h1.2.1, h1.2.2]
    · rw [if_neg, if_neg h1]
      simp only [not_and_or] at h1
      rcases h1 with h | h | h <;> simp [h]
  constructor
  · rw [key]; split_ifs with h1 h2 h3 <;> simp_all <;> omega
  constructor
  · rw [key]; split_ifs with h1 h2 h3 <;> simp_all <;> omega
  constructor
  · rw [key]; split_ifs with h1 h2 h3 <;> simp_all <;> omega
  constructor
  · rw [key]; split_ifs with h1 h2 h3 <;> simp_all <;> omega
  constructor
  · intro hs; rw [key]; rw [if_pos]; rw [statusBuffer_eq]; omega
  · intro hs; rw [key]
    rw [if_neg, if_neg (by omega : ¬ now < s)]
    rw [statusBuffer_eq]; omega

/-- Witness for C2 at start = 0, now = 0: the two boundary instances. -/
theorem C2_witness :
    determineEventStatus (some 0) (some (0 + 900000)) 0 = EventStatus.NOW ∧
    determineEventStatus (some 0) (some (0 + 840000)) 0 = EventStatus.ENDED :=
  ⟨(C2_status_cases 0 0 0).2.2.2.2.1 (by decide),
   (C2_status_cases 0 0 0).2.2.2.2.2 (by decide)⟩

/-! ## C9: the two countdown formatters -/

/-- C9 counterexample: at -60 minutes the EventProcessor formatter emits a
sign and the timeUtils formatter does not. -/
theorem C9_counterexample :
    EventProcessor.formatCountdown (-60) ≠ TimeUtils.formatCountdown (-60) := by
  decide

/-- C9 amended: the two formatters agree exactly on inputs above -60
minutes; at or below -60 the EventProcessor variant prepends a minus sign
to the timeUtils output. -/
theorem C9_countdown_amended (m : ℤ) :
    (-60 < m → EventProcessor.formatCountdown m = TimeUtils.formatCountdown m) ∧
    (m ≤ -60 → EventProcessor.formatCountdown m = "-" ++ TimeUtils.formatCountdown m) := by
  constructor
  · intro h
    unfold EventProcessor.formatCountdown TimeUtils.formatCountdown
    by_cases h1 : m.natAbs < 60
    · simp [h1]
    · have hm : ¬ m < 0 := by omega
      simp [h1, hm]
  · intro h
    have h1 : ¬ m.natAbs < 60 := by omega
    have hm : m < 0 := by omega
    unfold EventProcessor.formatCountdown TimeUtils.formatCountdown
    simp only [h1, if_false, hm, if_true]
    split <;> simp [String.append_assoc]

/-- Witness for C9 at m = 45. -/
theorem C9_witness :
    EventProcessor.formatCountdown 45 = TimeUtils.formatCountdown 45 :=
  (C9_countdown_amended 45).1 (by decide)


/-! ## Character-level facts and substring lemmas for the geocoder proofs -/

theorem digit_ne {a : Char} (h : isDigitC a = true) :
    a ≠ 'z' ∧ a ≠ '&' ∧ a ≠ ':' ∧ a ≠ '.' ∧ a ≠ '-' ∧ a ≠ '+' ∧
    isSpaceC a = false ∧ upperChar a = a := by
  simp only [isDigitC, Bool.and_eq_true, decide_eq_true_eq] at h
  refine ⟨?_, ?_, ?_, ?_, ?_, ?_, ?_, ?_⟩
  · intro hz; subst hz; revert h; decide
  · intro hz; subst hz; revert h; decide
  · intro hz; subst hz; revert h; decide
  · intro hz; subst hz; revert h; decide
  · intro hz; subst hz; revert h; decide
  · intro hz; subst hz; revert h; decide
  · simp only [isSpaceC, Bool.or_eq_false_iff, decide_eq_false_iff_not]
    omega
  · rw [upperChar, if_neg]
    simp only [Bool.and_eq_true, decide_eq_true_eq, not_and]
    omega

theorem containsSub_mem {hay pat : List Char} (h : containsSub hay pat = true) :
    ∀ x ∈ pat, x ∈ hay := by
  induction hay with
  | nil =>
    simp only [containsSub, List.isEmpty_iff] at h
    subst h; intro x hx; exact absurd hx (List.not_mem_nil x)
  | cons c t ih =>
    rw [containsSub, Bool.or_eq_true] at h
    rcases h with h | h
    · intro x hx
      exact (List.IsPrefix.subset (List.isPrefixOf_iff_prefix.mp h)) hx
    · intro x hx
      exact List.mem_cons_of_mem c (ih h x hx)

theorem containsSub_eq_false_of_not_mem {hay pat : List Char} {c : Char}
    (hc : c ∈ pat) (h : c ∉ hay) : containsSub hay pat = false := by
  rw [← Bool.not_eq_true]
  intro hcon
  exact h (containsSub_mem hcon c hc)

theorem contains_eq_false_of_not_mem {s : List Char} {c : Char} (h : c ∉ s) :
    s.contains c = false := by
  rw [← Bool.not_eq_true, List.contains_eq_any_beq]
  simp only [List.any_eq_true, beq_iff_eq, not_exists]
  rintro x ⟨hx, hxc⟩
  exact h (hxc ▸ hx)

theorem contains_eq_true_of_mem {s : List Char} {c : Char} (h : c ∈ s) :
    s.contains c = true := by
  rw [List.contains_eq_any_beq]
  simp only [List.any_eq_true, beq_iff_eq]
  exact ⟨c, h, rfl⟩

theorem containsSub_of_suffix {xs ys pat : List Char} (h : containsSub ys pat = true) :
    containsSub (xs ++ ys) pat = true := by
  induction xs with
  | nil => simpa using h
  | cons c t ih =>
    rw [List.cons_append, containsSub, ih]
    simp

/-- The clock shapes for which the portal regex captures the whole clock:
a one- or two-digit hour, or an hour with a colon and two minute digits. -/
def portalClockOkB (c : List Char) : Bool :=
  match c with
  | [a] => isDigitC a
  | [a, b] => isDigitC a && isDigitC b
  | [a, c, m1, m2] => isDigitC a && (c == ':') && isDigitC m1 && isDigitC m2
  | [a, b, c, m1, m2] =>
    isDigitC a && isDigitC b && (c == ':') && isDigitC m1 && isDigitC m2
  | _ => false

theorem C8_portal_amended (c : List Char) (hok : portalClockOkB c = true) :
    ∃ b, bearingFromClock c = ClockRes.val b ∧
      coordOfPolar (c ++ (" Portal").toList) = some (2500 * FT2M, some b) := by
  -- reusable pieces, specialised by shape below
  have hlist : (" Portal").toList = [' ', 'P', 'o', 'r', 't', 'a', 'l'] := rfl
  rw [portalClockOkB.eq_def] at hok
  split at hok
  -- shape [a]
  case h_1 a =>
    obtain ⟨hz, hamp, hcol, hdot, hmin, hplus, hsp, hup⟩ := digit_ne hok
    have hnorm : stripSpaces ((trimC [a]).map upperChar) = [a] := by
      simp [trimC, trimL, List.dropWhile, hsp, stripSpaces, List.filter, hup]
    have hcontc : ([a]).contains ':' = false :=
      contains_eq_false_of_not_mem (by simp only [List.mem_singleton]; exact fun h => hcol h.symm)
    have hd : digits14 [a] = true := by simp [digits14, allDigits, hok]
    have hhm : ∃ p, bearingHM [a] = some (some p) := by
      rw [bearingHM, if_neg (by rw [hcontc]; exact Bool.false_ne_true), if_pos hd,
        if_pos (by simp)]
      exact ⟨_, rfl⟩
    obtain ⟨p, hp0⟩ := hhm
    have hbear : ∃ b, bearingFromClock [a] = ClockRes.val b := by
      rw [bearingFromClock, hnorm, hp0]
      exact ⟨_, rfl⟩
    obtain ⟨b, hb⟩ := hbear
    refine ⟨b, hb, ?_⟩
    rw [hlist]
    simp only [List.cons_append, List.nil_append]
    have hzs : containsSub (a :: [' ', 'P', 'o', 'r', 't', 'a', 'l']) ("Plaza".toList) = false := by
      apply containsSub_eq_false_of_not_mem (c := 'z') (by decide)
      simp only [List.mem_cons, not_or]
      exact ⟨fun h => hz h.symm, by decide⟩
    have hpor : containsSub (a :: [' ', 'P', 'o', 'r', 't', 'a', 'l']) ("Portal".toList) = true := by
      have h0 := @containsSub_of_suffix [a] [' ', 'P', 'o', 'r', 't', 'a', 'l']
        (("Portal").toList) (by decide)
      simpa using h0
    have hnoamp : (a :: [' ', 'P', 'o', 'r', 't', 'a', 'l']).contains '&' = false := by
      apply contains_eq_false_of_not_mem
      simp only [List.mem_cons, not_or]
      exact ⟨fun h => hamp h.symm, by decide⟩
    have hfind : portalFind (a :: [' ', 'P', 'o', 'r', 't', 'a', 'l']) = some [a] := by
      rw [portalFind]
      have hmat : portalMatchAt (a :: [' ', 'P', 'o', 'r', 't', 'a', 'l']) = some [a] := by
        rw [portalMatchAt]
        rw [show pm5 (a :: [' ', 'P', 'o', 'r', 't', 'a', 'l']) = none from by
          rw [pm5]; rw [if_neg]; simp [show isDigitC ' ' = false from by decide]]
        rw [show pm4 (a :: [' ', 'P', 'o', 'r', 't', 'a', 'l']) = none from by
          rw [pm4]; rw [if_neg]; simp [show ((' ' : Char) == ':') = false from by decide]]
        rw [show pm2 (a :: [' ', 'P', 'o', 'r', 't', 'a', 'l']) = none from by
          rw [pm2]; rw [if_neg]; simp [show isDigitC ' ' = false from by decide]]
        rw [pm1, if_pos (by rw [hok]; simp only [Bool.true_and]; decide)]
      rw [hmat]
    rw [coordOfPolar, hzs, if_neg Bool.false_ne_true]
    rw [portalOrIntersect, hpor, hnoamp, if_pos (by decide)]
    rw [show radiusFeetForRing (("ESPLANADE").toList) = some 2500 from by decide]
    rw [hfind]
    show mkPolar (some 2500) (bearingFromClock [a]) = _
    rw [hb]
    rfl
  case h_2 a b0 =>
    rw [Bool.and_eq_true] at hok
    obtain ⟨ha, hb0⟩ := hok
    obtain ⟨hza, hampa, hcola, hdota, hmina, hplusa, hspa, hupa⟩ := digit_ne ha
    obtain ⟨hzb, hampb, hcolb, hdotb, hminb, hplusb, hspb, hupb⟩ := digit_ne hb0
    have hnorm : stripSpaces ((trimC [a, b0]).map upperChar) = [a, b0] := by
      simp [trimC, trimL, List.dropWhile, hspa, hspb, stripSpaces, List.filter, hupa, hupb]
    have hcontc : ([a, b0]).contains ':' = false := by
      apply contains_eq_false_of_not_mem
      simp only [List.mem_cons, List.not_mem_nil, not_or]
      exact ⟨fun h => hcola h.symm, fun h => hcolb h.symm, fun h => h⟩
    have hd : digits14 [a, b0] = true := by simp [digits14, allDigits, ha, hb0]
    have hhm : ∃ p, bearingHM [a, b0] = some (some p) := by
      rw [bearingHM, if_neg (by rw [hcontc]; exact Bool.false_ne_true), if_pos hd,
        if_pos (by simp)]
      exact ⟨_, rfl⟩
    obtain ⟨p, hp0⟩ := hhm
    have hbear : ∃ b, bearingFromClock [a, b0] = ClockRes.val b := by
      rw [bearingFromClock, hnorm, hp0]
      exact ⟨_, rfl⟩
    obtain ⟨b, hb⟩ := hbear
    refine ⟨b, hb, ?_⟩
    rw [hlist]
    simp only [List.cons_append, List.nil_append]
    have hzs : containsSub (a :: b0 :: [' ', 'P', 'o', 'r', 't', 'a', 'l']) ("Plaza".toList) = false := by
      apply containsSub_eq_false_of_not_mem (c := 'z') (by decide)
      simp only [List.mem_cons, not_or]
      exact ⟨fun h => hza h.symm, fun h => hzb h.symm, by decide⟩
    have hpor : containsSub (a :: b0 :: [' ', 'P', 'o', 'r', 't', 'a', 'l']) ("Portal".toList) = true := by
      have h0 := @containsSub_of_suffix [a, b0] [' ', 'P', 'o', 'r', 't', 'a', 'l']
        (("Portal").toList) (by decide)
      simpa using h0
    have hnoamp : (a :: b0 :: [' ', 'P', 'o', 'r', 't', 'a', 'l']).contains '&' = false := by
      apply contains_eq_false_of_not_mem
      simp only [List.mem_cons, not_or]
      exact ⟨fun h => hampa h.symm, fun h => hampb h.symm, by decide⟩
    have hfind : portalFind (a :: b0 :: [' ', 'P', 'o', 'r', 't', 'a', 'l']) = some [a, b0] := by
      rw [portalFind]
      have hmat : portalMatchAt (a :: b0 :: [' ', 'P', 'o', 'r', 't', 'a', 'l']) = some [a, b0] := by
        rw [portalMatchAt]
        rw [show pm5 (a :: b0 :: [' ', 'P', 'o', 'r', 't', 'a', 'l']) = none from by
          rw [pm5]; rw [if_neg]; simp [show ((' ' : Char) == ':') = false from by decide]]
        rw [show pm4 (a :: b0 :: [' ', 'P', 'o', 'r', 't', 'a', 'l']) = none from by
          rw [pm4]; rw [if_neg]; simp [show isDigitC ' ' = false from by decide]]
        rw [pm2, if_pos (by rw [ha, hb0]; simp only [Bool.true_and]; decide)]
      rw [hmat]
    rw [coordOfPolar, hzs, if_neg Bool.false_ne_true]
    rw [portalOrIntersect, hpor, hnoamp, if_pos (by decide)]
    rw [show radiusFeetForRing (("ESPLANADE").toList) = some 2500 from by decide]
    rw [hfind]
    show mkPolar (some 2500) (bearingFromClock [a, b0]) = _
    rw [hb]
    rfl
  case h_3 a co m1 m2 =>
    simp only [Bool.and_eq_true, beq_iff_eq] at hok
    obtain ⟨⟨⟨ha, hco⟩, hm1⟩, hm2⟩ := hok
    subst hco
    obtain ⟨hza, hampa, hcola, hdota, hmina, hplusa, hspa, hupa⟩ := digit_ne ha
    obtain ⟨hzm1, hampm1, hcolm1, hdotm1, hminm1, hplusm1, hspm1, hupm1⟩ := digit_ne hm1
    obtain ⟨hzm2, hampm2, hcolm2, hdotm2, hminm2, hplusm2, hspm2, hupm2⟩ := digit_ne hm2
    have hnorm : stripSpaces ((trimC [a, ':', m1, m2]).map upperChar) = [a, ':', m1, m2] := by
      simp [trimC, trimL, List.dropWhile, hspa, hspm1, hspm2, stripSpaces, List.filter,
        hupa, hupm1, hupm2, show isSpaceC ':' = false from by decide,
        show upperChar ':' = ':' from by decide]
    have hcontc : ([a, ':', m1, m2]).contains ':' = true :=
      contains_eq_true_of_mem (by simp)
    have hsplit : splitOnC ':' [a, ':', m1, m2] = [[a], [m1, m2]] := by
      simp [splitOnC, fun h => hcola h, fun h => hcolm1 h, fun h => hcolm2 h, hcola, hcolm1, hcolm2]
    have htla : trimL [a] = [a] := by simp [trimL, List.dropWhile, hspa]
    have hpi : parseIntJS [a] = some ((digitsToNat [a] : ℕ) : ℤ) := by
      rw [parseIntJS.eq_def]
      simp only [htla]
      rw [show (a == '-') = false from beq_eq_false_iff_ne.mpr hmina]
      rw [show (a == '+') = false from beq_eq_false_iff_ne.mpr hplusa]
      simp only [Bool.false_eq_true, if_false]
      rw [parseDigitsPrefix]
      simp [takeWhile_all_eq, ha, List.takeWhile, List.isEmpty]
    have hhm : ∃ p, bearingHM [a, ':', m1, m2] = some (some p) := by
      rw [bearingHM, if_pos hcontc]
      simp only [hsplit, List.headD, hpi]
      exact ⟨_, rfl⟩
    obtain ⟨p, hp0⟩ := hhm
    have hbear : ∃ b, bearingFromClock [a, ':', m1, m2] = ClockRes.val b := by
      rw [bearingFromClock, hnorm, hp0]
      exact ⟨_, rfl⟩
    obtain ⟨b, hb⟩ := hbear
    refine ⟨b, hb, ?_⟩
    rw [hlist]
    simp only [List.cons_append, List.nil_append]
    have hzs : containsSub (a :: ':' :: m1 :: m2 :: [' ', 'P', 'o', 'r', 't', 'a', 'l']) ("Plaza".toList) = false := by
      apply containsSub_eq_false_of_not_mem (c := 'z') (by decide)
      simp only [List.mem_cons, not_or]
      exact ⟨fun h => hza h.symm, by decide, fun h => hzm1 h.symm, fun h => hzm2 h.symm, by decide⟩
    have hpor : containsSub (a :: ':' :: m1 :: m2 :: [' ', 'P', 'o', 'r', 't', 'a', 'l']) ("Portal".toList) = true := by
      have h0 := @containsSub_of_suffix [a, ':', m1, m2] [' ', 'P', 'o', 'r', 't', 'a', 'l']
        (("Portal").toList) (by decide)
      simpa using h0
    have hnoamp : (a :: ':' :: m1 :: m2 :: [' ', 'P', 'o', 'r', 't', 'a', 'l']).contains '&' = false := by
      apply contains_eq_false_of_not_mem
      simp only [List.mem_cons, not_or]
      exact ⟨fun h => hampa h.symm, by decide, fun h => hampm1 h.symm, fun h => hampm2 h.symm, by decide⟩
    have hfind : portalFind (a :: ':' :: m1 :: m2 :: [' ', 'P', 'o', 'r', 't', 'a', 'l']) = some [a, ':', m1, m2] := by
      rw [portalFind]
      have hmat : portalMatchAt (a :: ':' :: m1 :: m2 :: [' ', 'P', 'o', 'r', 't', 'a', 'l']) = some [a, ':', m1, m2] := by
        rw [portalMatchAt]
        rw [show pm5 (a :: ':' :: m1 :: m2 :: [' ', 'P', 'o', 'r', 't', 'a', 'l']) = none from by
          rw [pm5]; rw [if_neg]; simp [show isDigitC ':' = false from by decide]]
        rw [pm4, if_pos (by rw [ha, hm1, hm2]; simp only [Bool.true_and, Bool.and_true]; decide)]
      rw [hmat]
    rw [coordOfPolar, hzs, if_neg Bool.false_ne_true]
    rw [portalOrIntersect, hpor, hnoamp, if_pos (by decide)]
    rw [show radiusFeetForRing (("ESPLANADE").toList) = some 2500 from by decide]
    rw [hfind]
    show mkPolar (some 2500) (bearingFromClock [a, ':', m1, m2]) = _
    rw [hb]
    rfl
  case h_4 a b0 co m1 m2 =>
    simp only [Bool.and_eq_true, beq_iff_eq] at hok
    obtain ⟨⟨⟨⟨ha, hb0⟩, hco⟩, hm1⟩, hm2⟩ := hok
    subst hco
    obtain ⟨hza, hampa, hcola, hdota, hmina, hplusa, hspa, hupa⟩ := digit_ne ha
    obtain ⟨hzb, hampb, hcolb, hdotb, hminb, hplusb, hspb, hupb⟩ := digit_ne hb0
    obtain ⟨hzm1, hampm1, hcolm1, hdotm1, hminm1, hplusm1, hspm1, hupm1⟩ := digit_ne hm1
    obtain ⟨hzm2, hampm2, hcolm2, hdotm2, hminm2, hplusm2, hspm2, hupm2⟩ := digit_ne hm2
    have hnorm : stripSpaces ((trimC [a, b0, ':', m1, m2]).map upperChar) = [a, b0, ':', m1, m2] := by
      simp [trimC, trimL, List.dropWhile, hspa, hspb, hspm1, hspm2, stripSpaces, List.filter,
        hupa, hupb, hupm1, hupm2, show isSpaceC ':' = false from by decide,
        show upperChar ':' = ':' from by decide]
    have hcontc : ([a, b0, ':', m1, m2]).contains ':' = true :=
      contains_eq_true_of_mem (by simp)
    have hsplit : splitOnC ':' [a, b0, ':', m1, m2] = [[a, b0], [m1, m2]] := by
      simp [splitOnC, hcola, hcolb, hcolm1, hcolm2]
    have htla : trimL [a, b0] = [a, b0] := by simp [trimL, List.dropWhile, hspa]
    have hpi : parseIntJS [a, b0] = some ((digitsToNat [a, b0] : ℕ) : ℤ) := by
      rw [parseIntJS.eq_def]
      simp only [htla]
      rw [show (a == '-') = false from beq_eq_false_iff_ne.mpr hmina]
      rw [show (a == '+') = false from beq_eq_false_iff_ne.mpr hplusa]
      simp only [Bool.false_eq_true, if_false]
      rw [parseDigitsPrefix]
      simp [takeWhile_all_eq, ha, hb0, List.takeWhile, List.isEmpty]
    have hhm : ∃ p, bearingHM [a, b0, ':', m1, m2] = some (some p) := by
      rw [bearingHM, if_pos hcontc]
      simp only [hsplit, List.headD, hpi]
      exact ⟨_, rfl⟩
    obtain ⟨p, hp0⟩ := hhm
    have hbear : ∃ b, bearingFromClock [a, b0, ':', m1, m2] = ClockRes.val b := by
      rw [bearingFromClock, hnorm, hp0]
      exact ⟨_, rfl⟩
    obtain ⟨b, hb⟩ := hbear
    refine ⟨b, hb, ?_⟩
    rw [hlist]
    simp only [List.cons_append, List.nil_append]
    have hzs : containsSub (a :: b0 :: ':' :: m1 :: m2 :: [' ', 'P', 'o', 'r', 't', 'a', 'l']) ("Plaza".toList) = false := by
      apply containsSub_eq_false_of_not_mem (c := 'z') (by decide)
      simp only [List.mem_cons, not_or]
      exact ⟨fun h => hza h.symm, fun h => hzb h.symm, by decide, fun h => hzm1 h.symm,
        fun h => hzm2 h.symm, by decide⟩
    have hpor : containsSub (a :: b0 :: ':' :: m1 :: m2 :: [' ', 'P', 'o', 'r', 't', 'a', 'l']) ("Portal".toList) = true := by
      have h0 := @containsSub_of_suffix [a, b0, ':', m1, m2] [' ', 'P', 'o', 'r', 't', 'a', 'l']
        (("Portal").toList) (by decide)
      simpa using h0
    have hnoamp : (a :: b0 :: ':' :: m1 :: m2 :: [' ', 'P', 'o', 'r', 't', 'a', 'l']).contains '&' = false := by
      apply contains_eq_false_of_not_mem
      simp only [List.mem_cons, not_or]
      exact ⟨fun h => hampa h.symm, fun h => hampb h.symm, by decide, fun h => hampm1 h.symm,
        fun h => hampm2 h.symm, by decide⟩
    have hfind : portalFind (a :: b0 :: ':' :: m1 :: m2 :: [' ', 'P', 'o', 'r', 't', 'a', 'l']) = some [a, b0, ':', m1, m2] := by
      rw [portalFind]
      have hmat : portalMatchAt (a :: b0 :: ':' :: m1 :: m2 :: [' ', 'P', 'o', 'r', 't', 'a', 'l']) = some [a, b0, ':', m1, m2] := by
        rw [portalMatchAt]
        rw [pm5, if_pos (by rw [ha, hb0, hm1, hm2]; simp only [Bool.true_and, Bool.and_true]; decide)]
      rw [hmat]
    rw [coordOfPolar, hzs, if_neg Bool.false_ne_true]
    rw [portalOrIntersect, hpor, hnoamp, if_pos (by decide)]
    rw [show radiusFeetForRing (("ESPLANADE").toList) = some 2500 from by decide]
    rw [hfind]
    show mkPolar (some 2500) (bearingFromClock [a, b0, ':', m1, m2]) = _
    rw [hb]
    rfl
  case h_5 =>
    exact absurd hok (by simp)

/-- Witness for the amended C8 at c = "9:30". -/
theorem C8_witness :
    portalClockOkB ("9:30".toList) = true ∧
    ∃ b, bearingFromClock ("9:30".toList) = ClockRes.val b ∧
      coordOfPolar ("9:30".toList ++ (" Portal").toList) = some (2500 * FT2M, some b) :=
  ⟨by decide, C8_portal_amended ("9:30".toList) (by decide)⟩

/-! ## Evaluating the geocoder's rational arithmetic -/

theorem ratTrunc_eq_floor {q : ℚ} (h : 0 ≤ q) : ratTrunc q = ⌊q⌋ := by
  rw [ratTrunc, Rat.floor_def, Int.tdiv_eq_ediv (Rat.num_nonneg.mpr h) (by positivity)]

theorem jsModQ_eval {a b : ℚ} (ha : 0 ≤ a) (hb : 0 < b) :
    jsModQ a b = a - b * ⌊a / b⌋ := by
  rw [jsModQ, ratTrunc_eq_floor (by positivity)]

theorem bearing_600 : bearingFromClock ("6:00".toList) = ClockRes.val 225 := by
  rw [bearingFromClock, show bearingHM (stripSpaces ((trimC ("6:00".toList)).map upperChar)) =
    some (some (6, 0)) from by decide]
  show ClockRes.val _ = _
  norm_num
  rw [jsModQ_eval (by norm_num [CITY_ROTATION_DEG]) (by norm_num)]
  norm_num [CITY_ROTATION_DEG]

theorem bearing_30 : bearingFromClock ("30".toList) = ClockRes.val 225 := by
  rw [bearingFromClock, show bearingHM (stripSpaces ((trimC ("30".toList)).map upperChar)) =
    some (some (30, 0)) from by decide]
  show ClockRes.val _ = _
  norm_num
  rw [jsModQ_eval (by norm_num [CITY_ROTATION_DEG]) (by norm_num)]
  norm_num [CITY_ROTATION_DEG]

theorem bearing_930 : bearingFromClock ("930".toList) = ClockRes.val 330 := by
  rw [bearingFromClock, show bearingHM (stripSpaces ((trimC ("930".toList)).map upperChar)) =
    some (some (9, 30)) from by decide]
  show ClockRes.val _ = _
  norm_num
  rw [jsModQ_eval (by norm_num [CITY_ROTATION_DEG]) (by norm_num)]
  norm_num [CITY_ROTATION_DEG]

/-- C8 counterexample: on the portal string built from the valid 4-digit
HMM clock "930", the portal regex captures only the substring "30", so
the returned bearing is 225, not bearingFromClock "930" = 330 as the
claim requires. -/
theorem C8_counterexample :
    coordOfPolar ("930 Portal".toList) = some (2500 * FT2M, some 225) ∧
    bearingFromClock ("930".toList) = ClockRes.val 330 ∧
    coordOfPolar ("930 Portal".toList) ≠ some (2500 * FT2M, some 330) := by
  have h1 : coordOfPolar ("930 Portal".toList) = some (2500 * FT2M, some 225) := by
    rw [show coordOfPolar ("930 Portal".toList) =
      mkPolar (radiusFeetForRing ("ESPLANADE".toList)) (bearingFromClock ("30".toList)) from rfl]
    rw [show radiusFeetForRing ("ESPLANADE".toList) = some 2500 from by decide, bearing_30]
    rfl
  refine ⟨h1, bearing_930, ?_⟩
  rw [h1]
  intro h
  rw [Option.some.injEq, Prod.mk.injEq, Option.some.injEq] at h
  have h2 := h.2
  norm_num at h2


/-! ## Split and trim lemmas for the intersection grammar -/

/-- Whitespace-free strings (every token of the clock and ring grammars). -/
def spaceFreeB (c : List Char) : Bool := c.all (fun ch => !(isSpaceC ch))

theorem splitOnC_not_mem {sep : Char} {ys : List Char} (h : sep ∉ ys) :
    splitOnC sep ys = [ys] := by
  induction ys with
  | nil => rfl
  | cons a t ih =>
    simp only [List.mem_cons, not_or] at h
    rw [splitOnC, if_neg (fun hx => h.1 hx.symm), ih h.2]

theorem splitOnC_append_cons {sep : Char} {xs ys : List Char} (h : sep ∉ xs) :
    splitOnC sep (xs ++ sep :: ys) = xs :: splitOnC sep ys := by
  induction xs with
  | nil =>
    rw [List.nil_append, splitOnC, if_pos rfl]
  | cons a t ih =>
    simp only [List.mem_cons, not_or] at h
    rw [List.cons_append, splitOnC, if_neg (fun hx => h.1 hx.symm), ih h.2]

theorem trimC_of_spaceFree {c : List Char} (h : spaceFreeB c = true) : trimC c = c := by
  rw [trimC, trimL, dropWhile_all_eq h, dropWhile_all_eq, List.reverse_reverse]
  rw [List.all_reverse]
  exact h

theorem trimC_append_space {c : List Char} (h : spaceFreeB c = true) :
    trimC (c ++ [' ']) = c := by
  cases c with
  | nil => rfl
  | cons a t =>
    have ha : isSpaceC a = false := by
      have h2 := h
      simp only [spaceFreeB, List.all_cons, Bool.and_eq_true, Bool.not_eq_true'] at h2
      exact h2.1
    rw [trimC, trimL]
    rw [show List.dropWhile isSpaceC ((a :: t) ++ [' ']) = (a :: t) ++ [' '] from by
      rw [List.cons_append, List.dropWhile_cons_of_neg (by simp [ha])]]
    rw [List.reverse_append]
    show List.reverse (List.dropWhile isSpaceC (' ' :: (a :: t).reverse)) = _
    rw [List.dropWhile_cons_of_pos (by decide), dropWhile_all_eq, List.reverse_reverse]
    rw [List.all_reverse]
    exact h

theorem trimC_cons_space {r : List Char} (h : spaceFreeB r = true) :
    trimC (' ' :: r) = r := by
  rw [trimC, trimL, List.dropWhile_cons_of_pos (by decide), dropWhile_all_eq h,
    dropWhile_all_eq, List.reverse_reverse]
  rw [List.all_reverse]
  exact h

theorem isClockish_nil : isClockish [] = false := by decide

theorem intersectOf_parts {s p1 p2 : List Char}
    (h : (splitOnC '&' s).map trimC = [p1, p2]) :
    intersectOf s =
      (if p1.isEmpty || p2.isEmpty then none
      else if isClockish p1 && !isClockish p2 then
        mkPolar (radiusFeetForRing p2) (bearingFromClock p1)
      else if isClockish p2 && !isClockish p1 then
        mkPolar (radiusFeetForRing p1) (bearingFromClock p2)
      else if ("ESPL".toList).isPrefixOf (p1.map upperChar) && isClockish p2 then
        mkPolar (radiusFeetForRing p1) (bearingFromClock p2)
      else if ("ESPL".toList).isPrefixOf (p2.map upperChar) && isClockish p1 then
        mkPolar (radiusFeetForRing p2) (bearingFromClock p1)
      else none) := by
  rw [intersectOf, h]

/-- C1: resolving an intersection address.  For a clock token c that the
resolver classifies as clock-like and parses to a finite bearing b, and a
ring token r that radiusFeetForRing accepts with radius rho (in
particular every single ring letter and the Esplanade keyword), coordOf
on the string joining them with " & " in either order returns exactly
destPoint(MAN, rho * FT2M, b), i.e. the polar pair (rho * FT2M, b).  The
cleanliness hypotheses (no whitespace, no ampersand, no letter z) hold
for every token of the address grammar. -/
theorem C1_resolveAddress_intersection (c r : List Char) (b rho : ℚ)
    (hb : bearingFromClock c = ClockRes.val b)
    (hck : isClockish c = true)
    (hcs : spaceFreeB c = true) (hca : '&' ∉ c) (hcz : 'z' ∉ c)
    (hrrho : radiusFeetForRing r = some rho)
    (hrk : isClockish r = false) (hrn : r ≠ [])
    (hrs : spaceFreeB r = true) (hra : '&' ∉ r) (hrz : 'z' ∉ r) :
    coordOfPolar (c ++ (" & ").toList ++ r) = some (rho * FT2M, some b) ∧
    coordOfPolar (r ++ (" & ").toList ++ c) = some (rho * FT2M, some b) := by
  have hcn : c ≠ [] := by
    intro h
    rw [h, isClockish_nil] at hck
    exact Bool.false_ne_true hck
  have hamp : (" & ").toList = [' ', '&', ' '] := rfl
  have key : ∀ p1 p2 : List Char, p1 = c ∨ p1 = r → p2 = c ∨ p2 = r →
      coordOfPolar (p1 ++ (" & ").toList ++ p2) =
        intersectOf (p1 ++ (" & ").toList ++ p2) := by
    intro p1 p2 h1 h2
    have hz1 : 'z' ∉ p1 := by rcases h1 with rfl | rfl <;> assumption
    have hz2 : 'z' ∉ p2 := by rcases h2 with rfl | rfl <;> assumption
    have ha1 : '&' ∈ p1 ++ (" & ").toList ++ p2 := by
      rw [hamp]
      simp
    have hzs : containsSub (p1 ++ (" & ").toList ++ p2) ("Plaza".toList) = false := by
      apply containsSub_eq_false_of_not_mem (c := 'z') (by decide)
      rw [hamp]
      simp only [List.mem_append, List.mem_cons, List.not_mem_nil, not_or]
      exact ⟨⟨hz1, by decide⟩, hz2⟩
    have hcamp : (p1 ++ (" & ").toList ++ p2).contains '&' = true :=
      contains_eq_true_of_mem ha1
    rw [coordOfPolar, hzs, if_neg Bool.false_ne_true]
    rw [portalOrIntersect, hcamp]
    simp only [Bool.not_true, Bool.and_false, Bool.false_eq_true, if_false]
  have hsplit : ∀ p1 p2 : List Char, p1 = c ∨ p1 = r → p2 = c ∨ p2 = r →
      (splitOnC '&' (p1 ++ (" & ").toList ++ p2)).map trimC = [p1, p2] := by
    intro p1 p2 h1 h2
    have hsf1 : spaceFreeB p1 = true := by rcases h1 with rfl | rfl <;> assumption
    have hsf2 : spaceFreeB p2 = true := by rcases h2 with rfl | rfl <;> assumption
    have hna1 : '&' ∉ p1 := by rcases h1 with rfl | rfl <;> assumption
    have hna2 : '&' ∉ p2 := by rcases h2 with rfl | rfl <;> assumption
    have hshape : p1 ++ (" & ").toList ++ p2 = (p1 ++ [' ']) ++ '&' :: (' ' :: p2) := by
      rw [hamp]
      simp
    rw [hshape, splitOnC_append_cons (by
      simp only [List.mem_append, List.mem_singleton, not_or]
      exact ⟨hna1, by decide⟩)]
    rw [splitOnC_not_mem (by
      simp only [List.mem_cons, not_or]
      exact ⟨by decide, hna2⟩)]
    rw [List.map_cons, List.map_cons, List.map_nil]
    rw [trimC_append_space hsf1, trimC_cons_space hsf2]
  constructor
  · rw [key c r (Or.inl rfl) (Or.inr rfl)]
    rw [intersectOf_parts (hsplit c r (Or.inl rfl) (Or.inr rfl))]
    rw [if_neg (by
      simp only [Bool.or_eq_true, List.isEmpty_iff]
      rintro (h | h)
      · exact hcn h
      · exact hrn h)]
    rw [hck, hrk]
    rw [if_pos (by decide)]
    rw [hrrho, hb]
    rfl
  · rw [key r c (Or.inr rfl) (Or.inl rfl)]
    rw [intersectOf_parts (hsplit r c (Or.inr rfl) (Or.inl rfl))]
    rw [if_neg (by
      simp only [Bool.or_eq_true, List.isEmpty_iff]
      rintro (h | h)
      · exact hrn h
      · exact hcn h)]
    rw [hrk, hck]
    rw [if_neg (by decide)]
    rw [if_pos (by decide)]
    rw [hrrho, hb]
    rfl

/-- Witness for C1: the intersection "6:00 & Esplanade" in both orders. -/
theorem C1_witness :
    coordOfPolar (("6:00").toList ++ (" & ").toList ++ ("Esplanade").toList) =
      some (2500 * FT2M, some 225) ∧
    coordOfPolar (("Esplanade").toList ++ (" & ").toList ++ ("6:00").toList) =
      some (2500 * FT2M, some 225) :=
  C1_resolveAddress_intersection ("6:00").toList ("Esplanade").toList 225 2500
    bearing_600 (by decide) (by decide) (by decide) (by decide)
    (by decide) (by decide) (by decide) (by decide) (by decide) (by decide)


/-! ## Decomposing membership in processEvents (shared by C3 and C10) -/

theorem mem_processEvents {hM : ℚ → ℚ → ℚ → ℚ → ℚ} {dP : ℚ → ℚ → ℚ × ℚ}
    {aM : String → Option ArtRecord} {cM : String → Option CampRecord}
    {events : List RawEvent} {fav : String → Bool} {p : SearchParams} {wall : ℤ}
    {pe : ProcessedEvent} (h : pe ∈ processEvents hM dP aM cM events fav p wall) :
    ∃ ev ∈ events, ∃ occ ∈ ev.occurrence_set.getD [],
      processOcc hM dP aM cM events fav p wall ev occ = some pe := by
  rw [processEvents] at h
  simp only [List.mem_flatMap, List.mem_filterMap] at h
  obtain ⟨ev, hev, occ, hocc, hpe⟩ := h
  exact ⟨ev, hev, occ, hocc, hpe⟩

theorem processOcc_some_decomp {hM : ℚ → ℚ → ℚ → ℚ → ℚ} {dP : ℚ → ℚ → ℚ × ℚ}
    {aM : String → Option ArtRecord} {cM : String → Option CampRecord}
    {events : List RawEvent} {fav : String → Bool} {p : SearchParams} {wall : ℤ}
    {ev : RawEvent} {occ : Occurrence} {pe : ProcessedEvent}
    (h : processOcc hM dP aM cM events fav p wall ev occ = some pe) :
    ∃ stf etf, occ.start_time = some stf ∧ occ.end_time = some etf ∧
      passesTimeFilter stf.val etf.val p.now (p.now + p.window * 60 * 1000) = true ∧
      pe.status = determineEventStatus stf.val etf.val p.now ∧
      pe.id = ev.uid ++ "_" ++ stf.raw := by
  cases hst : occ.start_time with
  | none => rw [processOcc, hst] at h; exact absurd h (by simp)
  | some stf =>
    cases het : occ.end_time with
    | none => rw [processOcc, hst, het] at h; exact absurd h (by simp)
    | some etf =>
      simp only [processOcc, hst, het] at h
      refine ⟨stf, etf, rfl, rfl, ?_⟩
      split at h
      · exact absurd h (by simp)
      · split at h
        · rename_i hpass
          refine ⟨hpass, ?_⟩
          split at h
          · exact absurd h (by simp)
          · split at h
            · split at h
              · exact absurd h (by simp)
              · split at h
                · exact absurd h (by simp)
                · split at h
                  · exact absurd h (by simp)
                  · rw [Option.some.injEq] at h
                    subst h
                    exact ⟨rfl, rfl⟩
            · exact absurd h (by simp)
        · exact absurd h (by simp)

theorem not_ended_of_passes {s e : Option ℤ} {now cutoff : ℤ}
    (h : passesTimeFilter s e now cutoff = true) :
    determineEventStatus s e now ≠ EventStatus.ENDED := by
  simp only [passesTimeFilter] at h
  rw [determineEventStatus.eq_def]
  by_cases hA : activeCond s e now = true
  · rw [if_pos hA]
    simp
  · rw [Bool.or_eq_true] at h
    rcases h with h | h
    · exact absurd h hA
    · rw [if_neg (by rw [Bool.not_eq_true] at hA; rw [hA]; exact Bool.false_ne_true)]
      cases s with
      | none => exact absurd h (by simp)
      | some sv =>
        simp only [Bool.and_eq_true, decide_eq_true_eq] at h
        show (if now < sv then
            if sv - now ≤ statusBuffer then EventStatus.SOON else EventStatus.UPCOMING
          else EventStatus.ENDED) ≠ EventStatus.ENDED
        rw [if_pos h.1]
        split <;> simp

/-! ## C10: no ENDED record is ever emitted -/

/-- C10: for every input dataset, venue caches, favourite set, search
parameters and wall clock, every ProcessedEvent returned by processEvents
has status NOW, SOON or UPCOMING, never ENDED: the time-window prefilter
admission condition is incompatible with the ENDED branch of the status
function. -/
theorem C10_no_ended_emitted (hM : ℚ → ℚ → ℚ → ℚ → ℚ) (dP : ℚ → ℚ → ℚ × ℚ)
    (aM : String → Option ArtRecord) (cM : String → Option CampRecord)
    (events : List RawEvent) (fav : String → Bool) (p : SearchParams) (wall : ℤ)
    (pe : ProcessedEvent) (h : pe ∈ processEvents hM dP aM cM events fav p wall) :
    pe.status ≠ EventStatus.ENDED := by
  obtain ⟨ev, _, occ, _, hpo⟩ := mem_processEvents h
  obtain ⟨stf, etf, _, _, hpass, hstat, _⟩ := processOcc_some_decomp hpo
  rw [hstat]
  exact not_ended_of_passes hpass

/-- Witness for C10: the concrete emitted record peSample. -/
theorem C10_witness : peSample.status ≠ EventStatus.ENDED :=
  C10_no_ended_emitted dist0 proj0 noArt noCamp [ev1] noFav sp1 0 peSample (by decide)

/-! ## C3: the time-window prefilter -/

/-- C3: for an occurrence with parseable start and end, the prefilter
admits exactly when (start ≤ now ≤ end and end − now ≥ 15 min) or (now <
start and start ≤ now + window); the boundary start = now + window is
admitted and anything later is dropped; and every record emitted by
processEvents stems from an occurrence that passed this prefilter, so the
prefilter acts before every other filter. -/
theorem C3_time_prefilter (s e now W : ℤ) :
    (passesTimeFilter (some s) (some e) now (now + W * 60 * 1000) = true ↔
      (s ≤ now ∧ now ≤ e ∧ statusBuffer ≤ e - now) ∨
      (now < s ∧ s ≤ now + W * 60 * 1000)) ∧
    (0 < W → s = now + W * 60 * 1000 →
      passesTimeFilter (some s) (some e) now (now + W * 60 * 1000) = true) ∧
    (0 < W → now + W * 60 * 1000 < s →
      passesTimeFilter (some s) (some e) now (now + W * 60 * 1000) = false) ∧
    (∀ (hM : ℚ → ℚ → ℚ → ℚ → ℚ) (dP : ℚ → ℚ → ℚ × ℚ)
      (aM : String → Option ArtRecord) (cM : String → Option CampRecord)
      (events : List RawEvent) (fav : String → Bool) (p : SearchParams) (wall : ℤ)
      (pe : ProcessedEvent), pe ∈ processEvents hM dP aM cM events fav p wall →
      ∃ ev ∈ events, ∃ occ ∈ ev.occurrence_set.getD [], ∃ stf etf,
        occ.start_time = some stf ∧ occ.end_time = some etf ∧
        passesTimeFilter stf.val etf.val p.now (p.now + p.window * 60 * 1000) = true ∧
        pe.id = ev.uid ++ "_" ++ stf.raw) := by
  have hiff : ∀ cutoff : ℤ, passesTimeFilter (some s) (some e) now cutoff = true ↔
      (s ≤ now ∧ now ≤ e ∧ statusBuffer ≤ e - now) ∨ (now < s ∧ s ≤ cutoff) := by
    intro cutoff
    simp only [passesTimeFilter, activeCond, Bool.or_eq_true, Bool.and_eq_true,
      decide_eq_true_eq]
    tauto
  refine ⟨hiff _, ?_, ?_, ?_⟩
  · intro hW hs
    rw [hiff]
    right
    omega
  · intro hW hs
    rw [← Bool.not_eq_true, hiff]
    push_neg
    constructor
    · intro h1
      omega
    · intro h1
      omega
  · intro hM dP aM cM events fav p wall pe h
    obtain ⟨ev, hev, occ, hocc, hpo⟩ := mem_processEvents h
    obtain ⟨stf, etf, h1, h2, h3, _, h4⟩ := processOcc_some_decomp hpo
    exact ⟨ev, hev, occ, hocc, stf, etf, h1, h2, h3, h4⟩

/-- Witness for C3: two instances of the boundary conjuncts at
window = 10 minutes and now = 0. -/
theorem C3_witness :
    passesTimeFilter (some (0 + 10 * 60 * 1000)) (some 1000000000) 0
      (0 + 10 * 60 * 1000) = true ∧
    passesTimeFilter (some (0 + 10 * 60 * 1000 + 1)) (some 1000000000) 0
      (0 + 10 * 60 * 1000) = false :=
  ⟨(C3_time_prefilter (0 + 10 * 60 * 1000) 1000000000 0 10).2.1 (by decide) rfl,
   (C3_time_prefilter (0 + 10 * 60 * 1000 + 1) 1000000000 0 10).2.2.1 (by decide) (by decide)⟩


/-! ## C5: ParseError handling in location resolution -/

/-- The art branch of resolveEventLocation does not fire: no linked art,
an empty (falsy) art id, or an id missing from the cache. -/
def artUnresolvedB (artMap : String → Option ArtRecord) (ev : RawEvent) : Bool :=
  match ev.located_at_art with
  | some aid => aid == "" || (artMap aid).isNone
  | none => true

/-- The camp branch of resolveEventLocation does not fire: no linked
camp, an empty id, a missing cache entry, or a camp with no (or an
empty) location string. -/
def campUnresolvedB (campMap : String → Option CampRecord) (ev : RawEvent) : Bool :=
  match ev.hosted_by_camp with
  | some cid =>
    cid == "" ||
    match campMap cid with
    | none => true
    | some camp =>
      match camp.location_string with
      | none => true
      | some ls => ls == ""
  | none => true

theorem artResolve_none {artMap : String → Option ArtRecord} {ev : RawEvent}
    (hart : artUnresolvedB artMap ev = true) : artResolve artMap ev = none := by
  rw [artUnresolvedB] at hart
  cases hla : ev.located_at_art with
  | none => simp only [artResolve, hla]
  | some aid =>
    rw [hla] at hart
    rw [Bool.or_eq_true] at hart
    simp only [artResolve, hla]
    by_cases he : aid = ""
    · rw [if_pos he]
    · rw [if_neg he]
      rcases hart with hart | hart
      · exact absurd (beq_iff_eq.mp hart) he
      · rw [Option.isNone_iff_eq_none] at hart
        simp only [hart]

theorem campResolve_none {campMap : String → Option CampRecord}
    {dP : ℚ → ℚ → ℚ × ℚ} {ev : RawEvent}
    (hcamp : campUnresolvedB campMap ev = true) : campResolve campMap dP ev = none := by
  rw [campUnresolvedB] at hcamp
  cases hlc : ev.hosted_by_camp with
  | none => simp only [campResolve, hlc]
  | some cid =>
    rw [hlc] at hcamp
    rw [Bool.or_eq_true] at hcamp
    simp only [campResolve, hlc]
    by_cases he : cid = ""
    · rw [if_pos he]
    · rw [if_neg he]
      rcases hcamp with hcamp | hcamp
      · exact absurd (beq_iff_eq.mp hcamp) he
      · cases hcm : campMap cid with
        | none => simp only [hcm]
        | some camp =>
          simp only [hcm] at hcamp
          simp only [hcm]
          cases hls : camp.location_string with
          | none => simp only [hls]
          | some ls =>
            simp only [hls] at hcamp
            simp only [hls]
            simp [beq_iff_eq.mp hcamp]

/-- C5 counterexample: a camp that is linked and found but whose address
string is the empty string.  The empty string fails to parse, yet the
resolver does not return the label-only camp result the claim promises:
the empty string is falsy, so the camp branch is skipped entirely and
resolution falls through to the unknown result. -/
theorem C5_counterexample :
    coordOfPolar ("".toList) = none ∧
    cm0 "c1" = some campE ∧ campE.location_string = some "" ∧
    evC.hosted_by_camp = some "c1" ∧
    resolveEventLocation noArt cm0 proj0 evC ≠
      { lat := none, lon := none, label := "@ []", source := LocSource.camp } ∧
    resolveEventLocation noArt cm0 proj0 evC =
      { lat := none, lon := none, label := "Location TBD", source := LocSource.unknown } := by
  decide

/-- C5 amended: resolveEventLocation never propagates a parse failure.
When the art branch does not fire, the linked camp is found and carries a
non-empty address string that coordOf rejects, the result is the
label-only camp record with null coordinates and source camp; when the
art and camp branches do not fire and other_location is a non-empty
string that coordOf rejects, the result is that string as an opaque
label with null coordinates and source other.  (The claim as stated
omits the art-priority precondition and fails for empty address strings,
which are falsy in JS and skip their branch.) -/
theorem C5_parse_fallback_amended (artMap : String → Option ArtRecord)
    (campMap : String → Option CampRecord) (dP : ℚ → ℚ → ℚ × ℚ) (ev : RawEvent) :
    (∀ cid camp ls, artUnresolvedB artMap ev = true →
      ev.hosted_by_camp = some cid → cid ≠ "" →
      campMap cid = some camp → camp.location_string = some ls → ls ≠ "" →
      coordOfPolar ls.toList = none →
      resolveEventLocation artMap campMap dP ev =
        { lat := none, lon := none, label := "@ [" ++ ls ++ "]", source := LocSource.camp }) ∧
    (∀ ol, artUnresolvedB artMap ev = true → campUnresolvedB campMap ev = true →
      ev.other_location = some ol → ol ≠ "" →
      coordOfPolar ol.toList = none →
      resolveEventLocation artMap campMap dP ev =
        { lat := none, lon := none, label := ol, source := LocSource.other }) := by
  constructor
  · intro cid camp ls hart hcid hcidne hcamp hls hlsne hparse
    have hgeo : geocodeGPS dP ls = none := by rw [geocodeGPS, hparse]
    have hcr : campResolve campMap dP ev =
        some { lat := none, lon := none, label := "@ [" ++ ls ++ "]"
               source := LocSource.camp } := by
      simp only [campResolve, hcid, if_neg hcidne, hcamp, hls, if_neg hlsne, hgeo]
    simp only [resolveEventLocation, artResolve_none hart, hcr]
  · intro ol hart hcampu hol holne hparse
    have hgeo : geocodeGPS dP ol = none := by rw [geocodeGPS, hparse]
    have hor : otherResolve dP ev =
        { lat := none, lon := none, label := ol, source := LocSource.other } := by
      simp only [otherResolve, hol, if_neg holne, hgeo]
    simp only [resolveEventLocation, artResolve_none hart, campResolve_none hcampu, hor]

/-- Witness for the amended C5: both branches at concrete inputs (the
unparseable non-empty camp address, and an unparseable other_location). -/
theorem C5_witness :
    resolveEventLocation noArt cmU proj0 evC =
      { lat := none, lon := none, label := "@ [somewhere in deep playa]"
        source := LocSource.camp } ∧
    resolveEventLocation noArt noCamp proj0
        { ev1 with uid := "e5", other_location := some "center of the universe" } =
      { lat := none, lon := none, label := "center of the universe"
        source := LocSource.other } :=
  ⟨(C5_parse_fallback_amended noArt cmU proj0 evC).1 "c1" campU "somewhere in deep playa"
      (by decide) (by decide) (by decide) (by decide) (by decide) (by decide) (by decide),
   (C5_parse_fallback_amended noArt noCamp proj0
        { ev1 with uid := "e5", other_location := some "center of the universe" }).2
      "center of the universe" (by decide) (by decide) (by decide) (by decide) (by decide)⟩


/-! ## C4: the distance filter -/

/-- C4 counterexample: with a viewer location supplied and an event whose
location resolves to the coordinate (0, 10) — dataset latitude 0 is a
finite number, so the location is resolved — the distance step is
silently skipped because 0 is falsy in JS: with radius 1 and a distance
function that always exceeds it, the occurrence is still emitted and its
distance is null, contradicting the claim that a resolved coordinate is
always distance-checked and dropped when the distance exceeds the
radius. -/
theorem C4_counterexample :
    (resolveEventLocation am0 noCamp proj0 evA).lat = some 0 ∧
    (resolveEventLocation am0 noCamp proj0 evA).lon = some 10 ∧
    spG.lat = some 1 ∧ spG.lon = some 2 ∧ spG.radius = 1 ∧
    ((processEvents (fun _ _ _ _ => 1000000000) proj0 am0 noCamp [evA] noFav spG 0).map
      (fun pe => pe.distance)) = [none] := by
  decide

/-- C4 amended: when a viewer location is supplied and the occurrence's
location resolves to a coordinate with non-zero latitude and longitude
(JS truthiness guard), processEvents computes the distance between them
and drops the occurrence exactly when it exceeds radius, emitting the
distance otherwise; when either resolved component is absent or zero
(falsy), the occurrence is never dropped by the distance step — its
outcome is independent of the radius — and any emitted record has null
distance. -/
theorem C4_distance_filter_amended
    (hM : ℚ → ℚ → ℚ → ℚ → ℚ) (dP : ℚ → ℚ → ℚ × ℚ)
    (aM : String → Option ArtRecord) (cM : String → Option CampRecord)
    (events : List RawEvent) (fav : String → Bool) (p : SearchParams) (wall : ℤ)
    (ev : RawEvent) (occ : Occurrence) (vla vlo : ℚ)
    (hla : p.lat = some vla) (hlo : p.lon = some vlo) :
    (∀ la lo, (resolveEventLocation aM cM dP ev).lat = some la →
      (resolveEventLocation aM cM dP ev).lon = some lo → la ≠ 0 → lo ≠ 0 →
      (p.radius < hM vla vlo la lo →
        processOcc hM dP aM cM events fav p wall ev occ = none) ∧
      (∀ pe, processOcc hM dP aM cM events fav p wall ev occ = some pe →
        hM vla vlo la lo ≤ p.radius ∧ pe.distance = some (hM vla vlo la lo))) ∧
    ((truthyQ (resolveEventLocation aM cM dP ev).lat = false ∨
      truthyQ (resolveEventLocation aM cM dP ev).lon = false) →
      (∀ r1 r2 : ℚ, processOcc hM dP aM cM events fav { p with radius := r1 } wall ev occ =
        processOcc hM dP aM cM events fav { p with radius := r2 } wall ev occ) ∧
      (∀ pe, processOcc hM dP aM cM events fav p wall ev occ = some pe →
        pe.distance = none)) := by
  constructor
  · intro la lo hrla hrlo hla0 hlo0
    have htla : truthyQ (some la) = true := by
      rw [truthyQ]
      simp [hla0]
    have htlo : truthyQ (some lo) = true := by
      rw [truthyQ]
      simp [hlo0]
    constructor
    · intro hfar
      cases hst : occ.start_time with
      | none => rw [processOcc, hst]
      | some stf =>
        cases het : occ.end_time with
        | none => rw [processOcc, hst, het]
        | some etf =>
          simp only [processOcc, hst, het, hla, hlo, htla, htlo, hrla, hrlo,
            Bool.and_self, if_pos hfar, if_true]
          repeat' split
          all_goals rfl
    · intro pe hpe
      cases hst : occ.start_time with
      | none => rw [processOcc, hst] at hpe; exact absurd hpe (by simp)
      | some stf =>
        cases het : occ.end_time with
        | none => rw [processOcc, hst, het] at hpe; exact absurd hpe (by simp)
        | some etf =>
          simp only [processOcc, hst, het, hla, hlo, htla, htlo, hrla, hrlo,
            Bool.and_self] at hpe
          by_cases hfar : p.radius < hM vla vlo la lo
          · rw [if_pos hfar] at hpe
            simp only [if_true] at hpe
            repeat' split at hpe
            all_goals exact absurd hpe (by simp)
          · rw [if_neg hfar] at hpe
            refine ⟨le_of_not_lt hfar, ?_⟩
            simp only [if_true] at hpe
            repeat' split at hpe
            all_goals try exact Option.noConfusion hpe
            all_goals rw [Option.some.injEq] at hpe
            all_goals subst hpe
            all_goals rfl
  · intro hfalsy
    have hfb : (truthyQ (resolveEventLocation aM cM dP ev).lat &&
        truthyQ (resolveEventLocation aM cM dP ev).lon) = false := by
      rcases hfalsy with h | h
      · rw [h, Bool.false_and]
      · rw [h, Bool.and_false]
    constructor
    · intro r1 r2
      cases hst : occ.start_time with
      | none => rw [processOcc, hst, processOcc, hst]
      | some stf =>
        cases het : occ.end_time with
        | none => rw [processOcc, hst, het, processOcc, hst, het]
        | some etf =>
          simp only [processOcc, hst, het, hla, hlo, hfb, Bool.false_eq_true, if_false]
    · intro pe hpe
      cases hst : occ.start_time with
      | none => rw [processOcc, hst] at hpe; exact absurd hpe (by simp)
      | some stf =>
        cases het : occ.end_time with
        | none => rw [processOcc, hst, het] at hpe; exact absurd hpe (by simp)
        | some etf =>
          simp only [processOcc, hst, het, hla, hlo, hfb, Bool.false_eq_true, if_false] at hpe
          repeat' split at hpe
          all_goals try exact Option.noConfusion hpe
          all_goals rw [Option.some.injEq] at hpe
          all_goals subst hpe
          all_goals rfl

/-- Witness for the amended C4: a resolved non-zero art coordinate, a
viewer location, and a distance function exceeding the radius: the
occurrence is dropped. -/
theorem C4_witness :
    processOcc (fun _ _ _ _ => 5) proj0 am1 noCamp [evB] noFav spG 0 evB occ1 = none :=
  ((C4_distance_filter_amended (fun _ _ _ _ => 5) proj0 am1 noCamp [evB] noFav spG 0
      evB occ1 1 2 (by decide) (by decide)).1 2 3
    (by decide) (by decide) (by decide) (by decide)).1 (by decide)


/-! ## C6: sorting -/

theorem insertCmp_perm {α : Type} (cmp : α → α → ℚ) (x : α) (l : List α) :
    (insertCmp cmp x l).Perm (x :: l) := by
  induction l with
  | nil => exact List.Perm.refl _
  | cons y ys ih =>
    rw [insertCmp]
    split_ifs
    · exact List.Perm.refl _
    · exact (ih.cons y).trans (List.Perm.swap x y ys)

theorem stableSortBy_perm {α : Type} (cmp : α → α → ℚ) (l : List α) :
    (stableSortBy cmp l).Perm l := by
  induction l with
  | nil => exact List.Perm.refl _
  | cons x xs ih =>
    rw [stableSortBy]
    exact (insertCmp_perm cmp x (stableSortBy cmp xs)).trans (ih.cons x)

theorem chain_insertCmp {α : Type} {cmp : α → α → ℚ}
    (hA : ∀ a b, 0 < cmp a b → cmp b a ≤ 0) (x : α) :
    ∀ {l : List α}, List.Chain' (fun a b => cmp a b ≤ 0) l →
      List.Chain' (fun a b => cmp a b ≤ 0) (insertCmp cmp x l) := by
  intro l
  induction l with
  | nil => intro _; simp [insertCmp]
  | cons y ys ih =>
    intro hch
    rw [insertCmp]
    split_ifs with hxy
    · exact List.chain'_cons.mpr ⟨hxy, hch⟩
    · have hyx : cmp y x ≤ 0 := hA x y (lt_of_not_le hxy)
      have hch' : List.Chain' (fun a b => cmp a b ≤ 0) ys := (List.chain'_cons'.mp hch).2
      rw [List.chain'_cons']
      refine ⟨?_, ih hch'⟩
      intro z hz
      cases ys with
      | nil =>
        simp only [insertCmp, Option.mem_def, Option.some.injEq, List.head?_cons] at hz
        subst hz
        exact hyx
      | cons w ws =>
        rw [insertCmp] at hz
        split_ifs at hz with hxw
        · simp only [Option.mem_def, Option.some.injEq, List.head?_cons] at hz
          subst hz
          exact hyx
        · simp only [Option.mem_def, Option.some.injEq, List.head?_cons] at hz
          subst hz
          exact (List.chain'_cons'.mp hch).1 w rfl

theorem chain_stableSortBy {α : Type} {cmp : α → α → ℚ}
    (hA : ∀ a b, 0 < cmp a b → cmp b a ≤ 0) (l : List α) :
    List.Chain' (fun a b => cmp a b ≤ 0) (stableSortBy cmp l) := by
  induction l with
  | nil => simp [stableSortBy]
  | cons x xs ih =>
    rw [stableSortBy]
    exact chain_insertCmp hA x ih

theorem oDiff_antisymm {x y : Option ℤ} (h : 0 < oDiff x y) : oDiff y x ≤ 0 := by
  cases x <;> cases y <;> simp only [oDiff] at h ⊢
  · linarith
  · linarith
  · linarith
  · push_cast at h ⊢
    linarith

theorem statusPriority_eq_iff {s : EventStatus} :
    statusPriority s = 0 ↔ s = EventStatus.NOW := by
  cases s <;> simp [statusPriority]

theorem strCmp_antisymm {a b : String} (h : 0 < strCmp a b) : strCmp b a ≤ 0 := by
  unfold strCmp at h ⊢
  split_ifs at h ⊢ <;> omega

theorem cmpDistance_antisymm {a b : ProcessedEvent} (h : 0 < cmpDistance a b) :
    cmpDistance b a ≤ 0 := by
  cases ha : a.distance <;> cases hb : b.distance <;>
    simp only [cmpDistance, ha, hb] at h ⊢ <;> linarith

theorem cmpTime_antisymm {a b : ProcessedEvent} (h : 0 < cmpTime a b) :
    cmpTime b a ≤ 0 := by
  rw [cmpTime] at h
  rw [cmpTime]
  exact oDiff_antisymm h

theorem cmpEnding_antisymm {a b : ProcessedEvent} (h : 0 < cmpEnding a b) :
    cmpEnding b a ≤ 0 := by
  rw [cmpEnding] at h
  rw [cmpEnding]
  by_cases han : a.status = EventStatus.NOW <;> by_cases hbn : b.status = EventStatus.NOW
  · rw [if_pos (by simp [han, hbn])] at h
    rw [if_pos (by simp [han, hbn])]
    exact oDiff_antisymm h
  · rw [if_neg (by simp [hbn]), if_pos (by simp [han, hbn])] at h
    norm_num at h
  · rw [if_neg (by simp [han]), if_neg (by simp [han]), if_pos (by simp [han, hbn])] at h
    rw [if_neg (by simp [han]), if_pos (by simp [han, hbn])]
    norm_num
  · rw [if_neg (by simp [han]), if_neg (by simp [han]), if_neg (by simp [hbn])] at h
    rw [if_neg (by simp [hbn]), if_neg (by simp [hbn]), if_neg (by simp [han])]
    exact oDiff_antisymm h

theorem cmpType_antisymm {a b : ProcessedEvent} (h : 0 < cmpType a b) :
    cmpType b a ≤ 0 := by
  rw [cmpType] at h
  rw [cmpType]
  by_cases ht : a.typeAbbr = b.typeAbbr
  · rw [if_neg (by simp [ht])] at h
    rw [if_neg (by simp [ht])]
    exact oDiff_antisymm h
  · rw [if_pos (by simp [ht])] at h
    rw [if_pos (fun hc => ht hc.symm)]
    have h2 : 0 < strCmp a.typeAbbr b.typeAbbr := by exact_mod_cast h
    exact_mod_cast strCmp_antisymm h2

theorem cmpTitle_antisymm {a b : ProcessedEvent} (h : 0 < cmpTitle a b) :
    cmpTitle b a ≤ 0 := by
  rw [cmpTitle] at h
  rw [cmpTitle]
  by_cases ht : a.title = b.title
  · rw [if_neg (by simp [ht])] at h
    rw [if_neg (by simp [ht])]
    exact oDiff_antisymm h
  · rw [if_pos (by simp [ht])] at h
    rw [if_pos (fun hc => ht hc.symm)]
    have h2 : 0 < strCmp a.title b.title := by exact_mod_cast h
    exact_mod_cast strCmp_antisymm h2

theorem cmpDefault_antisymm {a b : ProcessedEvent} (h : 0 < cmpDefault a b) :
    cmpDefault b a ≤ 0 := by
  rw [cmpDefault] at h
  rw [cmpDefault]
  by_cases hp : statusPriority a.status = statusPriority b.status
  · rw [if_neg (by simp [hp])] at h
    rw [if_neg (by simp [hp])]
    by_cases han : a.status = EventStatus.NOW
    · have hbn : b.status = EventStatus.NOW := by
        rw [← statusPriority_eq_iff, ← hp, statusPriority_eq_iff]
        exact han
      rw [if_pos han] at h
      rw [if_pos hbn]
      exact oDiff_antisymm h
    · have hbn : ¬ b.status = EventStatus.NOW := by
        rw [← statusPriority_eq_iff, ← hp, statusPriority_eq_iff]
        exact han
      rw [if_neg han] at h
      rw [if_neg hbn]
      exact oDiff_antisymm h
  · rw [if_pos (by simp [hp])] at h
    rw [if_pos (fun hc => hp hc.symm)]
    have h3 : (0 : ℤ) < statusPriority a.status - statusPriority b.status := by exact_mod_cast h
    have h4 : statusPriority b.status - statusPriority a.status ≤ 0 := by omega
    exact_mod_cast h4

theorem cmpOf_antisymm (sortType : String) (a b : ProcessedEvent)
    (h : 0 < cmpOf sortType a b) : cmpOf sortType b a ≤ 0 := by
  rw [cmpOf] at h
  rw [cmpOf]
  split_ifs at h ⊢
  · exact cmpDistance_antisymm h
  · exact cmpTime_antisymm h
  · exact cmpEnding_antisymm h
  · exact cmpType_antisymm h
  · exact cmpTitle_antisymm h
  · exact cmpDefault_antisymm h

/-- C6 counterexample: two distinct records that tie under the time
comparator (equal start).  The sort is stable, so each input order is
returned unchanged: the two permutations of the same list produce
different outputs. -/
theorem C6_counterexample :
    List.Perm [peA, peB] [peB, peA] ∧
    sortEvents [peA, peB] "time" ≠ sortEvents [peB, peA] "time" := by
  decide

/-- C6 amended: for every strategy string and every input list,
sortEvents returns a permutation of its input that is nondecreasing
under the strategy's comparator, and it is a deterministic function of
the input sequence.  Independence of the input order fails in general:
the sort is stable, so elements that compare equal keep their input
order (see the counterexample). -/
theorem C6_sort_amended (sortType : String) (l : List ProcessedEvent) :
    (sortEvents l sortType).Perm l ∧
    List.Chain' (fun a b => cmpOf sortType a b ≤ 0) (sortEvents l sortType) :=
  ⟨stableSortBy_perm (cmpOf sortType) l,
   chain_stableSortBy (cmpOf_antisymm sortType) l⟩


/-! ## C7: determinism and the wall clock -/

/-- Blank out the only wall-clock-dependent field. -/
def eraseFutureDays (pe : ProcessedEvent) : ProcessedEvent :=
  { pe with futureOccurrences := "" }

/-- C7 counterexample: identical inputs and an identical now override,
but two different wall-clock instants: getFutureOccurrences reads the
true wall clock (new Date()), so the emitted futureOccurrences string
differs and the outputs are not byte-identical. -/
theorem C7_counterexample :
    processEvents dist0 proj0 noArt noCamp [ev1] noFav sp1 0 ≠
    processEvents dist0 proj0 noArt noCamp [ev1] noFav sp1 2000000000 := by
  decide

theorem processOcc_wall_erase (hM : ℚ → ℚ → ℚ → ℚ → ℚ) (dP : ℚ → ℚ → ℚ × ℚ)
    (aM : String → Option ArtRecord) (cM : String → Option CampRecord)
    (events : List RawEvent) (fav : String → Bool) (p : SearchParams)
    (ev : RawEvent) (occ : Occurrence) (w1 w2 : ℤ) :
    (processOcc hM dP aM cM events fav p w1 ev occ).map eraseFutureDays =
    (processOcc hM dP aM cM events fav p w2 ev occ).map eraseFutureDays := by
  cases hst : occ.start_time with
  | none => rw [processOcc, hst, processOcc, hst]
  | some stf =>
    cases het : occ.end_time with
    | none => rw [processOcc, hst, het, processOcc, hst, het]
    | some etf =>
      simp only [processOcc, hst, het]
      repeat' split
      all_goals simp [eraseFutureDays]

/-- C7 amended: sortEvents reads no clock at all, and for fixed inputs
and a fixed now override the output of processEvents is identical across
runs except for the futureOccurrenceDays field, which is computed from
the true wall clock (by design, per the spec's own step 10) and is the
only wall-clock dependence: erasing that single field makes the outputs
of any two runs byte-identical. -/
theorem C7_determinism_amended (hM : ℚ → ℚ → ℚ → ℚ → ℚ) (dP : ℚ → ℚ → ℚ × ℚ)
    (aM : String → Option ArtRecord) (cM : String → Option CampRecord)
    (events : List RawEvent) (fav : String → Bool) (p : SearchParams) (w1 w2 : ℤ) :
    (processEvents hM dP aM cM events fav p w1).map eraseFutureDays =
    (processEvents hM dP aM cM events fav p w2).map eraseFutureDays := by
  rw [processEvents, processEvents, List.map_flatMap, List.map_flatMap]
  congr 1
  funext ev
  rw [List.map_filterMap, List.map_filterMap]
  congr 1
  funext occ
  exact processOcc_wall_erase hM dP aM cM events fav p ev occ w1 w2


/-! ## The spec's clock and ring grammars satisfy the C1 hypotheses -/

/-- The H:MM form of the clock grammar: a one- or two-digit hour, a
colon, then one or two minute digits. -/
def colonFormB (c : List Char) : Bool :=
  let h := c.takeWhile isDigitC
  let rest := c.drop h.length
  (1 ≤ h.length && h.length ≤ 2) &&
  match rest with
  | d :: m => (d == ':') && (1 ≤ m.length && m.length ≤ 2) && allDigits m
  | [] => false

/-- The spec's clock grammar: "H", "HMM" (1-4 digits), a decimal
fraction with a 1-4 digit integer part, or "H:MM". -/
def clockGrammarB (c : List Char) : Bool := clockNumRegex c || colonFormB c

/-- The spec's ring names: a single ring letter in either case, or the
Esplanade keyword in its usual spellings. -/
def ringGrammarB (r : List Char) : Bool :=
  decide (r ∈ [['A'], ['B'], ['C'], ['D'], ['E'], ['F'], ['G'], ['H'], ['I'], ['J'], ['K'],
    ['a'], ['b'], ['c'], ['d'], ['e'], ['f'], ['g'], ['h'], ['i'], ['j'], ['k'],
    ("Esplanade").toList, ("ESPLANADE").toList, ("esplanade").toList,
    ("Espl").toList, ("ESPL").toList, ("espl").toList])

theorem takeWhile_split (c : List Char) :
    c = c.takeWhile isDigitC ++ c.drop (c.takeWhile isDigitC).length := by
  have hpre : c.takeWhile isDigitC <+: c := List.takeWhile_prefix _
  conv_lhs => rw [← List.take_append_drop (c.takeWhile isDigitC).length c]
  rw [← List.prefix_iff_eq_take.mp hpre]

theorem chars_of_clockNumRegex {c : List Char} (h : clockNumRegex c = true) :
    ∀ ch ∈ c, isDigitC ch = true ∨ ch = '.' := by
  intro ch hch
  rw [takeWhile_split c] at hch
  rw [List.mem_append] at hch
  rcases hch with hch | hch
  · exact Or.inl (List.mem_takeWhile_imp hch)
  · rw [clockNumRegex] at h
    rcases hdrop : c.drop (c.takeWhile isDigitC).length with _ | ⟨d, b⟩
    · rw [hdrop] at hch
      exact absurd hch (List.not_mem_nil ch)
    · rw [hdrop] at h hch
      simp only [Bool.and_eq_true, beq_iff_eq] at h
      rcases List.mem_cons.mp hch with hch | hch
      · exact Or.inr (hch.trans h.1.1.1.1)
      · exact Or.inl (List.all_eq_true.mp h.2 ch hch)

theorem chars_of_colonForm {c : List Char} (h : colonFormB c = true) :
    ∀ ch ∈ c, isDigitC ch = true ∨ ch = ':' := by
  intro ch hch
  rw [takeWhile_split c] at hch
  rw [List.mem_append] at hch
  rcases hch with hch | hch
  · exact Or.inl (List.mem_takeWhile_imp hch)
  · rw [colonFormB] at h
    simp only [Bool.and_eq_true] at h
    rcases hdrop : c.drop (c.takeWhile isDigitC).length with _ | ⟨d, b⟩
    · rw [hdrop] at hch
      exact absurd hch (List.not_mem_nil ch)
    · rw [hdrop] at h hch
      simp only [Bool.and_eq_true, beq_iff_eq] at h
      rcases List.mem_cons.mp hch with hch | hch
      · exact Or.inr (hch.trans h.2.1.1)
      · exact Or.inl (List.all_eq_true.mp h.2.2 ch hch)

theorem map_upper_eq_self {c : List Char} (h : ∀ ch ∈ c, upperChar ch = ch) :
    c.map upperChar = c :=
  (List.map_congr_left h).trans (List.map_id c)

theorem norm_eq_self {c : List Char} (hs : spaceFreeB c = true)
    (hu : c.map upperChar = c) :
    stripSpaces ((trimC c).map upperChar) = c := by
  rw [trimC_of_spaceFree hs, hu, stripSpaces, List.filter_eq_self.mpr]
  rw [spaceFreeB, List.all_eq_true] at hs
  exact hs

theorem parseIntJS_digits {xs : List Char} (hd : allDigits xs = true) (hne : xs ≠ []) :
    ∃ n : ℤ, parseIntJS xs = some n := by
  cases xs with
  | nil => exact absurd rfl hne
  | cons a t =>
    have ha : isDigitC a = true := by
      rw [allDigits, List.all_cons, Bool.and_eq_true] at hd
      exact hd.1
    obtain ⟨hza, hampa, hcola, hdota, hmina, hplusa, hspa, hupa⟩ := digit_ne ha
    have htl : trimL (a :: t) = a :: t := by
      simp [trimL, List.dropWhile, hspa]
    rw [parseIntJS.eq_def]
    simp only [htl]
    rw [show (a == '-') = false from beq_eq_false_iff_ne.mpr hmina]
    rw [show (a == '+') = false from beq_eq_false_iff_ne.mpr hplusa]
    simp only [Bool.false_eq_true, if_false]
    rw [parseDigitsPrefix]
    rw [takeWhile_all_eq (show (a :: t).all isDigitC = true from hd)]
    simp

/-- Every string of the spec's clock grammar satisfies all hypotheses
that C1 places on the clock token. -/
theorem clockGrammar_valid (c : List Char) (h : clockGrammarB c = true) :
    isClockish c = true ∧ spaceFreeB c = true ∧ '&' ∉ c ∧ 'z' ∉ c ∧
    ∃ b, bearingFromClock c = ClockRes.val b := by
  rw [clockGrammarB, Bool.or_eq_true] at h
  have hchars : ∀ ch ∈ c, isDigitC ch = true ∨ ch = '.' ∨ ch = ':' := by
    rcases h with h | h
    · intro ch hch
      rcases chars_of_clockNumRegex h ch hch with h1 | h1
      · exact Or.inl h1
      · exact Or.inr (Or.inl h1)
    · intro ch hch
      rcases chars_of_colonForm h ch hch with h1 | h1
      · exact Or.inl h1
      · exact Or.inr (Or.inr h1)
  have hsf : spaceFreeB c = true := by
    rw [spaceFreeB, List.all_eq_true]
    intro ch hch
    rcases hchars ch hch with h1 | h1 | h1
    · simp [(digit_ne h1).2.2.2.2.2.2.1]
    · subst h1; decide
    · subst h1; decide
  have hna : '&' ∉ c := by
    intro hch
    rcases hchars _ hch with h1 | h1 | h1
    · exact (digit_ne h1).2.1 rfl
    · exact absurd h1 (by decide)
    · exact absurd h1 (by decide)
  have hnz : 'z' ∉ c := by
    intro hch
    rcases hchars _ hch with h1 | h1 | h1
    · exact (digit_ne h1).1 rfl
    · exact absurd h1 (by decide)
    · exact absurd h1 (by decide)
  have hup : c.map upperChar = c := by
    apply map_upper_eq_self
    intro ch hch
    rcases hchars ch hch with h1 | h1 | h1
    · exact (digit_ne h1).2.2.2.2.2.2.2
    · subst h1; decide
    · subst h1; decide
  have hnorm := norm_eq_self hsf hup
  rcases h with h | h
  · -- numeric form: no colon anywhere
    have hcont : c.contains ':' = false := by
      apply contains_eq_false_of_not_mem
      intro hch
      rcases chars_of_clockNumRegex h ':' hch with h1 | h1
      · exact absurd h1 (by decide)
      · exact absurd h1 (by decide)
    have hck : isClockish c = true := by
      rw [isClockish, h, Bool.or_true]
    refine ⟨hck, hsf, hna, hnz, ?_⟩
    have hval : ∃ p, bearingHM c = some (some p) := by
      rw [clockNumRegex] at h
      rcases hdrop : c.drop (c.takeWhile isDigitC).length with _ | ⟨d, b⟩
      · rw [hdrop] at h
        simp only [Bool.and_eq_true] at h
        have hca : c = c.takeWhile isDigitC := by
          conv_lhs => rw [takeWhile_split c, hdrop, List.append_nil]
        have hall : allDigits c = true := by
          rw [allDigits, List.all_eq_true]
          intro ch hch
          rw [hca] at hch
          exact List.mem_takeWhile_imp hch
        have hd14 : digits14 c = true := by
          rw [digits14, hall, Bool.and_true]
          rw [← hca] at h
          simp only [Bool.and_eq_true]
          exact h
        rw [bearingHM, if_neg (by rw [hcont]; exact Bool.false_ne_true), if_pos hd14]
        split_ifs
        · exact ⟨_, rfl⟩
        · exact ⟨_, rfl⟩
      · rw [hdrop] at h
        simp only [Bool.and_eq_true, beq_iff_eq] at h
        have hd14 : digits14 c = false := by
          rw [digits14]
          have hoff : allDigits c = false := by
            rw [← Bool.not_eq_true, allDigits, List.all_eq_true]
            intro hall
            have hdot : d ∈ c := by
              rw [takeWhile_split c, hdrop, List.mem_append]
              exact Or.inr (List.mem_cons_self _ _)
            have := hall d hdot
            rw [h.1.1.1.1] at this
            exact absurd this (by decide)
          rw [hoff, Bool.and_false]
        have hdec : decRegexUnbounded c = true := by
          rw [decRegexUnbounded, hdrop]
          simp only [Bool.and_eq_true, beq_iff_eq]
          exact ⟨⟨⟨h.1.1.1.1, h.1.1.1.2⟩, h.1.2⟩, h.2⟩
        rw [bearingHM, if_neg (by rw [hcont]; exact Bool.false_ne_true),
          if_neg (by rw [hd14]; exact Bool.false_ne_true), if_pos hdec]
        exact ⟨_, rfl⟩
    obtain ⟨p, hp⟩ := hval
    rw [bearingFromClock, hnorm, hp]
    exact ⟨_, rfl⟩
  · -- colon form
    rw [colonFormB] at h
    simp only [Bool.and_eq_true] at h
    rcases hdrop : c.drop (c.takeWhile isDigitC).length with _ | ⟨d, m⟩
    · rw [hdrop] at h
      simp at h
    · rw [hdrop] at h
      simp only [Bool.and_eq_true, beq_iff_eq] at h
      have hdcol : d = ':' := h.2.1.1
      subst hdcol
      have hshape : c = c.takeWhile isDigitC ++ ':' :: m := by
        conv_lhs => rw [takeWhile_split c, hdrop]
      have hcmem : ':' ∈ c := by
        rw [hshape, List.mem_append]
        exact Or.inr (List.mem_cons_self _ _)
      have hck : isClockish c = true := by
        rw [isClockish, contains_eq_true_of_mem hcmem, Bool.true_or]
      refine ⟨hck, hsf, hna, hnz, ?_⟩
      have hdigh : allDigits (c.takeWhile isDigitC) = true := by
        rw [allDigits, List.all_eq_true]
        intro ch hch
        exact List.mem_takeWhile_imp hch
      have hdigm : allDigits m = true := h.2.2
      have hAc : ':' ∉ c.takeWhile isDigitC := fun hm =>
        absurd (List.all_eq_true.mp hdigh ':' hm) (by decide)
      have hMc : ':' ∉ m := fun hm =>
        absurd (List.all_eq_true.mp hdigm ':' hm) (by decide)
      have hsplit2 : splitOnC ':' c = [c.takeWhile isDigitC, m] := by
        conv_lhs => rw [hshape]
        rw [splitOnC_append_cons hAc, splitOnC_not_mem hMc]
      have hhne : c.takeWhile isDigitC ≠ [] := by
        intro hnil
        rw [hnil] at h
        simp at h
      obtain ⟨n, hn⟩ := parseIntJS_digits hdigh hhne
      have hval : ∃ p, bearingHM c = some (some p) := by
        rw [bearingHM, if_pos (contains_eq_true_of_mem hcmem)]
        simp only [hsplit2, List.headD, hn]
        exact ⟨_, rfl⟩
      obtain ⟨p, hp⟩ := hval
      rw [bearingFromClock, hnorm, hp]
      exact ⟨_, rfl⟩

/-- Every string of the spec's ring grammar satisfies all hypotheses
that C1 places on the ring token. -/
theorem ringGrammar_valid (r : List Char) (h : ringGrammarB r = true) :
    (∃ rho, radiusFeetForRing r = some rho) ∧ isClockish r = false ∧ r ≠ [] ∧
    spaceFreeB r = true ∧ '&' ∉ r ∧ 'z' ∉ r := by
  rw [ringGrammarB, decide_eq_true_eq] at h
  have key : ∀ s : List Char, (radiusFeetForRing s).isSome = true → isClockish s = false →
      s ≠ [] → spaceFreeB s = true → '&' ∉ s → 'z' ∉ s →
      (∃ rho, radiusFeetForRing s = some rho) ∧ isClockish s = false ∧ s ≠ [] ∧
      spaceFreeB s = true ∧ '&' ∉ s ∧ 'z' ∉ s := by
    intro s h1 h2 h3 h4 h5 h6
    exact ⟨Option.isSome_iff_exists.mp h1, h2, h3, h4, h5, h6⟩
  fin_cases h <;>
    exact key _ (by decide) (by decide) (by decide) (by decide) (by decide) (by decide)

end BRC
